import Mathlib

/-!
# Verification of the fan-control engine (`src/fn-fan/app/server/fan_control.py`)

A shallow embedding of the fan control engine: the temperature→PWM curve
mapper, temperature history / averaging, the control cycle (warm-up gate,
disabled check, safety fallback, target computation, hysteresis, actuation)
and the temperature alerting with per-source cooldown throttling.

Modelling conventions:
* Python integers are `ℤ`; absent values (`None`) are `Option`.
* Python float arithmetic in `linear_map` is modelled exactly over `ℚ`;
  Python `int()` (truncation toward zero) is `ratTrunc`.  The executable
  definition of `linear_map` folds the rational expression into one
  fraction and truncates with `Int.tdiv` (truncating division, which on a
  positive denominator agrees with `ratTrunc` of the fraction); the lemma
  `linear_map_eq_ratTrunc` proves it equal to the literal rational formula.
* Timestamps (`time.time()`) only ever enter comparisons of the shape
  `now - last >= interval`; they are modelled as `ℤ`.
* External effects are explicit: sensor reads come in through a `CycleEnv`
  record, PWM writes and push notifications come out as lists.
-/

namespace FanControl

/-- One control point `{temp, pwm}` of a fan curve. -/
structure CurvePoint where
  temp : ℤ
  pwm : ℤ
deriving DecidableEq

/-- Python `int()`: truncation of a rational toward zero. -/
def ratTrunc (q : ℚ) : ℤ :=
  if q < 0 then ⌈q⌉ else ⌊q⌋

/-- `linear_map(value, in_min, in_max, out_min, out_max)` from fan_control.py:

    if in_max <= in_min: return out_min
    ratio = (value - in_min) / (in_max - in_min)
    result = out_min + ratio * (out_max - out_min)
    return max(out_min, min(out_max, int(result)))

The rational `result` is the single fraction
`(out_min*(in_max-in_min) + (value-in_min)*(out_max-out_min)) / (in_max-in_min)`,
and `int()` of it is `Int.tdiv` of numerator by the (positive) denominator;
`linear_map_eq_ratTrunc` below proves this model equal to the literal
rational expression. -/
def linear_map (value in_min in_max out_min out_max : ℤ) : ℤ :=
  if in_max ≤ in_min then out_min
  else
    let result : ℤ :=
      Int.tdiv (out_min * (in_max - in_min) + (value - in_min) * (out_max - out_min))
        (in_max - in_min)
    max out_min (min out_max result)

/-- The stage bands applied to an interpolated PWM value in
`calculate_pwm_from_curve`: `<60`→idle, `<120`→work, `<200`→warning,
else critical. -/
def stage_of_pwm (pwm : ℤ) : String :=
  if pwm < 60 then "idle"
  else if pwm < 120 then "work"
  else if pwm < 200 then "warning"
  else "critical"

/-- The scan `for i in range(len(sorted_curve) - 1): ...` of
`calculate_pwm_from_curve`: find the first adjacent pair `(p1, p2)` with
`p1.temp <= temp <= p2.temp` and interpolate; the trailing
`return 100, "unknown"` is the fallthrough. -/
def curve_interp (temp : ℤ) : List CurvePoint → ℤ × String
  | p1 :: p2 :: rest =>
    if p1.temp ≤ temp ∧ temp ≤ p2.temp then
      let pwm := linear_map temp p1.temp p2.temp p1.pwm p2.pwm
      (pwm, stage_of_pwm pwm)
    else curve_interp temp (p2 :: rest)
  | _ => (100, "unknown")

/-- The sort order of `sorted(curve, key=lambda p: p["temp"])`. -/
def curveLe (p q : CurvePoint) : Prop :=
  p.temp ≤ q.temp

instance : DecidableRel curveLe :=
  fun p q => inferInstanceAs (Decidable (p.temp ≤ q.temp))

instance : IsTotal CurvePoint curveLe :=
  ⟨fun p q => le_total p.temp q.temp⟩

instance : IsTrans CurvePoint curveLe :=
  ⟨fun _ _ _ h1 h2 => le_trans h1 h2⟩

/-- `sorted(curve, key=lambda p: p["temp"])`: Python's `sorted` is a stable
sort, as is insertion sort, so the two agree on every input. -/
def sortCurve (curve : List CurvePoint) : List CurvePoint :=
  curve.insertionSort curveLe

/-- `calculate_pwm_from_curve(temp, curve)` from fan_control.py:
empty curve → `(100, "unknown")`; otherwise sort by temperature, clamp to
the extreme points (stages "idle" / "critical"), else interpolate in the
bracketing segment. -/
def calculate_pwm_from_curve (temp : ℤ) (curve : List CurvePoint) : ℤ × String :=
  if curve.isEmpty then (100, "unknown")
  else
    match sortCurve curve with
    | [] => (100, "unknown")
    | p :: ps =>
      if temp ≤ p.temp then (p.pwm, "idle")
      else if (ps.getLastD p).temp ≤ temp then ((ps.getLastD p).pwm, "critical")
      else curve_interp temp (p :: ps)

/-- `DEFAULT_CPU_CURVE` from fan_control.py. -/
def DEFAULT_CPU_CURVE : List CurvePoint :=
  [⟨20, 20⟩, ⟨30, 30⟩, ⟨40, 50⟩, ⟨50, 80⟩, ⟨60, 120⟩, ⟨65, 160⟩, ⟨70, 210⟩, ⟨80, 255⟩]

/-- `DEFAULT_DISK_CURVE` from fan_control.py. -/
def DEFAULT_DISK_CURVE : List CurvePoint :=
  [⟨20, 20⟩, ⟨26, 35⟩, ⟨32, 55⟩, ⟨38, 85⟩, ⟨44, 130⟩, ⟨50, 175⟩, ⟨55, 220⟩, ⟨60, 255⟩]

/-- The `FanConfig` dataclass (fields the control engine reads; the PWM
control-file paths are abstracted away since writes are modelled as
explicit outputs). -/
structure FanConfig where
  enabled : Bool
  temp_history_size : ℤ
  pwm_change_threshold : ℤ
  alert_enabled : Bool
  cpu_alert_temp : ℤ
  disk_alert_temp : ℤ
  alert_interval : ℤ
  alert_hostname : String
  use_curve_mode : Bool
  cpu_curve : List CurvePoint
  disk_curve : List CurvePoint
  cpu_idle_temp_min : ℤ
  cpu_idle_temp_max : ℤ
  cpu_work_temp_max : ℤ
  cpu_warning_temp_max : ℤ
  cpu_critical_temp_max : ℤ
  disk_idle_temp_min : ℤ
  disk_idle_temp_max : ℤ
  disk_work_temp_max : ℤ
  disk_warning_temp_max : ℤ
  disk_critical_temp_max : ℤ
  idle_pwm_min : ℤ
  idle_pwm_max : ℤ
  work_pwm_min : ℤ
  work_pwm_max : ℤ
  warning_pwm_min : ℤ
  warning_pwm_max : ℤ
  critical_pwm_min : ℤ
  critical_pwm_max : ℤ
  active_disks : List String
deriving DecidableEq

/-- The dataclass defaults of `FanConfig`. -/
def default_config : FanConfig where
  enabled := true
  temp_history_size := 4
  pwm_change_threshold := 0
  alert_enabled := true
  cpu_alert_temp := 62
  disk_alert_temp := 42
  alert_interval := 60
  alert_hostname := "MainNAS"
  use_curve_mode := true
  cpu_curve := DEFAULT_CPU_CURVE
  disk_curve := DEFAULT_DISK_CURVE
  cpu_idle_temp_min := 45
  cpu_idle_temp_max := 50
  cpu_work_temp_max := 62
  cpu_warning_temp_max := 72
  cpu_critical_temp_max := 80
  disk_idle_temp_min := 38
  disk_idle_temp_max := 40
  disk_work_temp_max := 42
  disk_warning_temp_max := 44
  disk_critical_temp_max := 46
  idle_pwm_min := 30
  idle_pwm_max := 60
  work_pwm_min := 60
  work_pwm_max := 150
  warning_pwm_min := 150
  warning_pwm_max := 220
  critical_pwm_min := 220
  critical_pwm_max := 255
  active_disks := []

/-- `calculate_pwm(temp, config, is_cpu)` from fan_control.py: curve mode
dispatches to `calculate_pwm_from_curve`, otherwise the legacy threshold
mode. -/
def calculate_pwm (temp : ℤ) (config : FanConfig) (is_cpu : Bool) : ℤ × String :=
  if config.use_curve_mode then
    calculate_pwm_from_curve temp (if is_cpu then config.cpu_curve else config.disk_curve)
  else
    let (idle_min, idle_max, work_max, warning_max, critical_max) :=
      if is_cpu then
        (config.cpu_idle_temp_min, config.cpu_idle_temp_max, config.cpu_work_temp_max,
         config.cpu_warning_temp_max, config.cpu_critical_temp_max)
      else
        (config.disk_idle_temp_min, config.disk_idle_temp_max, config.disk_work_temp_max,
         config.disk_warning_temp_max, config.disk_critical_temp_max)
    if temp < idle_max then
      (linear_map temp idle_min idle_max config.idle_pwm_min config.idle_pwm_max, "idle")
    else if temp < work_max then
      (linear_map temp idle_max work_max config.work_pwm_min config.work_pwm_max, "work")
    else if temp < warning_max then
      (linear_map temp work_max warning_max config.warning_pwm_min config.warning_pwm_max,
       "warning")
    else if temp < critical_max then
      (linear_map temp warning_max critical_max config.critical_pwm_min
        config.critical_pwm_max, "critical")
    else
      (config.critical_pwm_max, "emergency")

/-- The `DiskInfo` dataclass (the fields the control engine reads;
descriptive metadata is irrelevant to the cycle). -/
structure DiskInfo where
  id : String
  device : String
  active : Bool
  temp : Option ℤ
deriving DecidableEq

/-- The `self.status` snapshot dictionary of `FanController`.  The Python
dictionaries `disk_temps` / `disk_avg_temps` are modelled as association
lists with the insertion order of Python dicts. -/
structure Status where
  cpu_temp : Option ℤ
  cpu_avg_temp : Option ℤ
  disk_temps : List (String × Option ℤ)
  disk_avg_temps : List (String × Option ℤ)
  max_disk_temp : Option ℤ
  fan_rpm : Option ℤ
  current_pwm : Option ℤ
  target_pwm : Option ℤ
  trigger_source : Option String
  trigger_stage : Option String
  is_warmed_up : Bool
  warmup_progress : ℤ
  last_update : Option ℤ
deriving DecidableEq

/-- The initial `self.status` dictionary of `FanController.__init__`. -/
def init_status : Status where
  cpu_temp := none
  cpu_avg_temp := none
  disk_temps := []
  disk_avg_temps := []
  max_disk_temp := none
  fan_rpm := none
  current_pwm := none
  target_pwm := none
  trigger_source := none
  trigger_stage := none
  is_warmed_up := false
  warmup_progress := 0
  last_update := none

/-- Python dict assignment `d[k] = v` on an association list: overwrite the
existing binding, or append a fresh one. -/
def dictInsert {α : Type} (d : List (String × α)) (k : String) (v : α) :
    List (String × α) :=
  if d.any (fun kv => kv.1 = k) then
    d.map (fun kv => if kv.1 = k then (k, v) else kv)
  else d ++ [(k, v)]

/-- Python dict lookup `d[k]` / `k in d`. -/
def dictGet {α : Type} (d : List (String × α)) (k : String) : Option α :=
  (d.find? (fun kv => kv.1 = k)).map (fun kv => kv.2)

/-- Python `d.get(k, v)`. -/
def dictGetD {α : Type} (d : List (String × α)) (k : String) (v : α) : α :=
  (dictGet d k).getD v

/-- The mutable state of `FanController` that the control cycle touches. -/
structure ControllerState where
  config : FanConfig
  disks : List DiskInfo
  cpu_temp_history : List ℤ
  disk_temp_history : List (String × List ℤ)
  warmup_counter : ℤ
  is_warmed_up : Bool
  last_alert_time_cpu : ℤ
  last_alert_time_disk : List (String × ℤ)
  status : Status
deriving DecidableEq

/-- One cycle's view of the external world: the values the sensor and
actuator reads of `_read_temps` would return, and `time.time()`. -/
structure CycleEnv where
  cpu_temp : Option ℤ
  disk_temp : String → Option ℤ
  fan_rpm : Option ℤ
  current_pwm : Option ℤ
  now : ℤ

/-- `while len(h) > history_size: h.pop(0)` — evict oldest entries from the
front until the window fits. -/
def trim_history (size : ℤ) (h : List ℤ) : List ℤ :=
  h.drop (h.length - size.toNat)

/-- The CPU-history update of `_read_temps`: a present reading is appended
(evicting the oldest beyond the window size); an absent reading leaves the
history untouched (there is no clearing branch for the CPU). -/
def cpu_hist_update (size : ℤ) (h : List ℤ) (t : Option ℤ) : List ℤ :=
  match t with
  | some v => trim_history size (h ++ [v])
  | none => h

/-- The per-disk history update of `_read_temps`: a present reading is
appended (with eviction); an absent reading clears the whole window
(`self.disk_temp_history[disk.id].clear()`). -/
def disk_hist_update (size : ℤ) (h : List ℤ) (t : Option ℤ) : List ℤ :=
  match t with
  | some v => trim_history size (h ++ [v])
  | none => []

/-- `_calc_avg`: integer floor mean of the valid (`> 0`) entries, `None`
when there are none.  (The Python histories only ever hold ints, so the
`t is not None` part of the filter is vacuous.) -/
def _calc_avg (history : List ℤ) : Option ℤ :=
  let valid := history.filter (fun t => 0 < t)
  if valid.isEmpty then none else some (Int.fdiv valid.sum valid.length)

/-- The accumulator of the per-disk loop in `_read_temps`. -/
structure DiskReadAcc where
  disks : List DiskInfo
  disk_temps : List (String × Option ℤ)
  disk_avg_temps : List (String × Option ℤ)
  hist : List (String × List ℤ)
  max_disk_temp : Option ℤ
deriving DecidableEq

/-- The body of `for disk in self.disks:` in `_read_temps`: read the disk's
temperature, update its history (clearing on an absent reading), compute
its average, and fold the maximum average over *active* disks only. -/
def read_one_disk (size : ℤ) (env : CycleEnv) (acc : DiskReadAcc) (disk : DiskInfo) :
    DiskReadAcc :=
  let temp := env.disk_temp disk.device
  let hist0 := (dictGet acc.hist disk.id).getD []
  let h := disk_hist_update size hist0 temp
  let avg := _calc_avg h
  let max' :=
    if disk.active then
      match avg, acc.max_disk_temp with
      | some a, none => some a
      | some a, some m => if m < a then some a else some m
      | none, m => m
    else acc.max_disk_temp
  { disks := acc.disks ++ [{ disk with temp := temp }]
    disk_temps := dictInsert acc.disk_temps disk.id temp
    disk_avg_temps := dictInsert acc.disk_avg_temps disk.id avg
    hist := dictInsert acc.hist disk.id h
    max_disk_temp := max' }

/-- `_read_temps`: sample the CPU and every known disk, update the rolling
histories, and publish the fresh snapshot into `self.status`. -/
def _read_temps (s : ControllerState) (env : CycleEnv) : ControllerState :=
  let history_size := s.config.temp_history_size
  let cpu_temp := env.cpu_temp
  let cpu_hist := cpu_hist_update history_size s.cpu_temp_history cpu_temp
  let cpu_avg := _calc_avg cpu_hist
  let acc := s.disks.foldl (read_one_disk history_size env)
    { disks := [], disk_temps := [], disk_avg_temps := [],
      hist := s.disk_temp_history, max_disk_temp := none }
  { s with
    disks := acc.disks
    cpu_temp_history := cpu_hist
    disk_temp_history := acc.hist
    status := { s.status with
      cpu_temp := cpu_temp
      cpu_avg_temp := cpu_avg
      disk_temps := acc.disk_temps
      disk_avg_temps := acc.disk_avg_temps
      max_disk_temp := acc.max_disk_temp
      fan_rpm := env.fan_rpm
      current_pwm := env.current_pwm
      last_update := some env.now } }

/-- Python truthiness-plus-threshold test `if v and v >= thr` on an
optional int: `None` and `0` are falsy. -/
def truthy_ge (v : Option ℤ) (thr : ℤ) : Bool :=
  match v with
  | some t => t ≠ 0 && thr ≤ t
  | none => false

/-- `avg is not None and avg > 0` — the validity test of the control cycle. -/
def truthy_pos (v : Option ℤ) : Bool :=
  match v with
  | some t => 0 < t
  | none => false

/-- The clamp of `set_pwm`: `value = max(0, min(255, value))`; the written
value. -/
def set_pwm_value (value : ℤ) : ℤ :=
  max 0 (min 255 value)

/-- The hysteresis filter of `_control_cycle`:

    if current_pwm is not None and threshold > 0:
        if abs(target_pwm - current_pwm) < threshold:
            target_pwm = current_pwm
-/
def apply_hysteresis (threshold : ℤ) (current_pwm : Option ℤ) (target : ℤ) : ℤ :=
  match current_pwm with
  | some c => if 0 < threshold ∧ |target - c| < threshold then c else target
  | none => target

/-- How `_check_temp_alert` renders `fan_rpm` into the message: the status
key always exists, so `status.get("fan_rpm", "N/A")` is the stored value
(`str(None)` is `"None"`). -/
def rpm_str (rpm : Option ℤ) : String :=
  match rpm with
  | some r => toString r
  | none => "None"

/-- The CPU breach message
`f"[{hostname}]: 🔥 CPU: {cpu_avg}°C | RPM: {fan_rpm}"`. -/
def cpu_alert_msg (hostname : String) (cpu_avg : ℤ) (fan_rpm : String) : String :=
  s!"[{hostname}]: 🔥 CPU: {cpu_avg}°C | RPM: {fan_rpm}"

/-- One entry `f"{disk_id}: {temp}°C"` of the coalesced disk breach list. -/
def disk_alert_entry (disk_id : String) (temp : ℤ) : String :=
  s!"{disk_id}: {temp}°C"

/-- The coalesced disk breach message
`f"[{hostname}]: 🔥 {', '.join(alert_disks)} | RPM: {fan_rpm}"`. -/
def disk_alert_msg (hostname : String) (joined : String) (fan_rpm : String) : String :=
  s!"[{hostname}]: 🔥 {joined} | RPM: {fan_rpm}"

/-- The loop body of `for disk_id, temp in disk_avg_temps.items():` in
`_check_temp_alert`: a breaching (`temp and temp >= disk_alert_temp`),
unthrottled disk appends its entry to the coalesced list and stamps its own
cooldown clock. -/
def disk_alert_step (interval now thr : ℤ)
    (acc : List String × List (String × ℤ)) (entry : String × Option ℤ) :
    List String × List (String × ℤ) :=
  let disk_id := entry.1
  match entry.2 with
  | some temp =>
    if temp ≠ 0 ∧ thr ≤ temp then
      let last_time := dictGetD acc.2 disk_id 0
      if interval ≤ now - last_time then
        (acc.1 ++ [disk_alert_entry disk_id temp], dictInsert acc.2 disk_id now)
      else acc
    else acc
  | none => acc

/-- The outcome of `_check_temp_alert`: the messages handed to
`_send_push`, and the updated per-source last-alert clocks. -/
structure AlertResult where
  pushes : List String
  last_alert_time_cpu : ℤ
  last_alert_time_disk : List (String × ℤ)
deriving DecidableEq

/-- `_check_temp_alert`: compare the CPU average and *every* entry of
`status["disk_avg_temps"]` against the alert thresholds, throttle each
source on its own cooldown clock, push CPU breaches individually and all
disk breaches of the cycle as one coalesced message. -/
def _check_temp_alert (config : FanConfig) (status : Status)
    (last_cpu : ℤ) (last_disk : List (String × ℤ)) (current_time : ℤ) : AlertResult :=
  if ¬config.alert_enabled then ⟨[], last_cpu, last_disk⟩
  else
    let interval := config.alert_interval
    let fan_rpm := rpm_str status.fan_rpm
    let hostname := config.alert_hostname
    let cpu_avg := status.cpu_avg_temp
    let cpuFired : Bool := truthy_ge cpu_avg config.cpu_alert_temp
        && decide (interval ≤ current_time - last_cpu)
    let cpu_pushes : List String :=
      if cpuFired then [cpu_alert_msg hostname (cpu_avg.getD 0) fan_rpm]
      else []
    let last_cpu' := if cpuFired then current_time else last_cpu
    let diskAcc := status.disk_avg_temps.foldl
      (disk_alert_step interval current_time config.disk_alert_temp)
      (([] : List String), last_disk)
    let disk_pushes : List String :=
      if diskAcc.1.isEmpty then []
      else [disk_alert_msg hostname (String.intercalate ", " diskAcc.1) fan_rpm]
    ⟨cpu_pushes ++ disk_pushes, last_cpu', diskAcc.2⟩

/-- One cycle's outcome: the state after the cycle, the PWM values written
by `set_pwm` (in order, already clamped), and the messages pushed. -/
structure CycleResult where
  state : ControllerState
  writes : List ℤ
  pushes : List String
deriving DecidableEq

/-- `_control_cycle` after the warm-up block: the disabled check, the
validity check with safety fallback, target computation, hysteresis,
actuation and the alert check (fan_control.py lines 696-756). -/
def cycle_after_warmup (s : ControllerState) (env : CycleEnv) : CycleResult :=
  if ¬s.config.enabled then ⟨s, [], []⟩
  else
    let cpu_avg := s.status.cpu_avg_temp
    let max_disk := s.status.max_disk_temp
    let current_pwm := s.status.current_pwm
    let has_cpu := truthy_pos cpu_avg
    let has_disk := truthy_pos max_disk
    if ¬has_cpu ∧ ¬has_disk then
      let safe_pwm : ℤ := 128
      let s' := { s with status := { s.status with
        target_pwm := some safe_pwm
        trigger_source := some "Safety"
        trigger_stage := some "warning" } }
      let writes := if current_pwm = some safe_pwm then [] else [set_pwm_value safe_pwm]
      ⟨s', writes, []⟩
    else
      let cpuR := if has_cpu then calculate_pwm (cpu_avg.getD 0) s.config true else (0, "")
      let diskR := if has_disk then calculate_pwm (max_disk.getD 0) s.config false else (0, "")
      let winner :=
        if diskR.1 ≤ cpuR.1 then (cpuR.1, "CPU", cpuR.2) else (diskR.1, "Disk", diskR.2)
      let threshold := s.config.pwm_change_threshold
      let target_pwm := apply_hysteresis threshold current_pwm winner.1
      let writes := if current_pwm = some target_pwm then [] else [set_pwm_value target_pwm]
      let s' := { s with status := { s.status with
        target_pwm := some target_pwm
        trigger_source := some winner.2.1
        trigger_stage := some winner.2.2 } }
      let ar := _check_temp_alert s'.config s'.status s'.last_alert_time_cpu
        s'.last_alert_time_disk env.now
      ⟨{ s' with last_alert_time_cpu := ar.last_alert_time_cpu
                 last_alert_time_disk := ar.last_alert_time_disk },
       writes, ar.pushes⟩

/-- `_control_cycle`: sample, run the warm-up gate (reaching the threshold
flips `is_warmed_up` permanently and continues the same cycle; before that
the cycle returns after sampling), then the active-cycle logic.
`warmup_progress` is `min(100, int(counter / history_size * 100))`. -/
def _control_cycle (s : ControllerState) (env : CycleEnv) : CycleResult :=
  let s1 := _read_temps s env
  let size := s1.config.temp_history_size
  if ¬s1.is_warmed_up then
    let counter := s1.warmup_counter + 1
    let progress := min 100 (ratTrunc ((counter : ℚ) / (size : ℚ) * 100))
    let s2 := { s1 with
      warmup_counter := counter
      status := { s1.status with warmup_progress := progress } }
    if size ≤ counter then
      let s3 := { s2 with is_warmed_up := true
                          status := { s2.status with is_warmed_up := true } }
      cycle_after_warmup s3 env
    else ⟨s2, [], []⟩
  else cycle_after_warmup s1 env

/-- `hasattr(self, key)` on the attribute map of a `FanConfig` instance
(modelled as an association list of attribute names). -/
def pyHasattr {α : Type} (cfg : List (String × α)) (k : String) : Bool :=
  cfg.any (fun kv => kv.1 = k)

/-- `setattr(self, key, value)` on an existing attribute. -/
def pySetattr {α : Type} (cfg : List (String × α)) (k : String) (v : α) :
    List (String × α) :=
  cfg.map (fun kv => if kv.1 = k then (k, v) else kv)

/-- `FanConfig.update` (fan_control.py lines 116-119), the operation behind
`update_config`:

    for key, value in data.items():
        if hasattr(self, key):
            setattr(self, key, value)
-/
def config_update {α : Type} (cfg : List (String × α)) (data : List (String × α)) :
    List (String × α) :=
  data.foldl (fun c kv => if pyHasattr c kv.1 then pySetattr c kv.1 kv.2 else c) cfg

/-! ## Dictionary / attribute-map lemmas -/

theorem map_fst_pySetattr {α : Type} (c : List (String × α)) (k : String) (v : α) :
    (pySetattr c k v).map Prod.fst = c.map Prod.fst := by
  induction c with
  | nil => rfl
  | cons kv rest ih =>
    simp only [pySetattr, List.map_cons] at ih ⊢
    by_cases h : kv.1 = k <;> simp [h, ih]

theorem pyHasattr_map_fst {α : Type} (c : List (String × α)) (k : String) :
    pyHasattr c k = (c.map Prod.fst).any (fun a => a = k) := by
  induction c with
  | nil => rfl
  | cons kv rest ih =>
    simp only [pyHasattr, List.any_cons, List.map_cons] at ih ⊢
    rw [ih]

theorem map_fst_config_update {α : Type} (cfg data : List (String × α)) :
    (config_update cfg data).map Prod.fst = cfg.map Prod.fst := by
  induction data generalizing cfg with
  | nil => rfl
  | cons kv rest ih =>
    simp only [config_update, List.foldl_cons] at ih ⊢
    by_cases h : pyHasattr cfg kv.1
    · simp only [h, if_pos]
      rw [ih, map_fst_pySetattr]
    · simp only [h, if_neg, ih]
      simp [h]

theorem dictGet_eq_none_of_not_pyHasattr {α : Type} (c : List (String × α)) (k : String)
    (h : pyHasattr c k = false) : dictGet c k = none := by
  simp only [pyHasattr, List.any_eq_false, decide_eq_true_eq] at h
  simp only [dictGet]
  rw [List.find?_eq_none.mpr]
  · rfl
  · intro x hx
    simpa using h x hx

theorem dictGet_pySetattr_ne {α : Type} (c : List (String × α)) (k k' : String) (v : α)
    (h : k' ≠ k) : dictGet (pySetattr c k' v) k = dictGet c k := by
  induction c with
  | nil => rfl
  | cons kv rest ih =>
    simp only [pySetattr, List.map_cons, dictGet] at ih ⊢
    by_cases hk : kv.1 = k'
    · rw [if_pos hk]
      rw [List.find?_cons_of_neg _ (by simp [h]),
        List.find?_cons_of_neg _ (by simp [hk, h])]
      exact ih
    · rw [if_neg hk]
      by_cases hkk : kv.1 = k
      · rw [List.find?_cons_of_pos _ (by simpa using hkk),
          List.find?_cons_of_pos _ (by simpa using hkk)]
      · rw [List.find?_cons_of_neg _ (by simpa using hkk),
          List.find?_cons_of_neg _ (by simpa using hkk)]
        exact ih

theorem dictGet_config_update_not_mem {α : Type} (cfg data : List (String × α))
    (k : String) (h : ∀ v, (k, v) ∉ data) :
    dictGet (config_update cfg data) k = dictGet cfg k := by
  induction data generalizing cfg with
  | nil => rfl
  | cons kv rest ih =>
    have hk : kv.1 ≠ k := by
      intro hh
      have hm : (k, kv.2) ∈ kv :: rest := by
        rw [← hh]
        exact List.mem_cons_self kv rest
      exact h kv.2 hm
    have hrest : ∀ v, (k, v) ∉ rest := fun v hv => h v (List.mem_cons_of_mem _ hv)
    simp only [config_update, List.foldl_cons] at ih ⊢
    by_cases hat : pyHasattr cfg kv.1
    · simp only [hat, if_pos]
      rw [ih _ hrest, dictGet_pySetattr_ne _ _ _ _ hk]
    · simp only [hat, if_neg]
      simp only [Bool.false_eq_true, if_false]
      exact ih _ hrest

/-- C10: for every configuration-update payload, `FanConfig.update` assigns
only the keys for which the configuration object already has an attribute;
every other key is silently ignored (the configuration stays without it),
keys absent from the payload are untouched, and no payload changes the
attribute set (no new configuration field; the operation is total by
construction, so it never raises). -/
theorem config_update_assigns_only_existing_keys (α : Type)
    (cfg data : List (String × α)) :
    (config_update cfg data).map Prod.fst = cfg.map Prod.fst ∧
    (∀ k, pyHasattr cfg k = false → dictGet (config_update cfg data) k = none) ∧
    (∀ k, (∀ v, (k, v) ∉ data) → dictGet (config_update cfg data) k = dictGet cfg k) := by
  refine ⟨map_fst_config_update cfg data, ?_, ?_⟩
  · intro k hk
    apply dictGet_eq_none_of_not_pyHasattr
    rw [pyHasattr_map_fst, map_fst_config_update, ← pyHasattr_map_fst]
    exact hk
  · intro k hk
    exact dictGet_config_update_not_mem cfg data k hk

/-- Witness for C10 at a concrete configuration and payload: the unknown
key `"bogus"` is ignored and creates no field, the untouched key
`"alert_interval"` keeps its value, and the attribute set is unchanged. -/
theorem config_update_assigns_only_existing_keys_witness :
    (config_update [("enabled", (1 : ℤ)), ("alert_interval", 60)]
        [("enabled", 0), ("bogus", 7)]).map Prod.fst = ["enabled", "alert_interval"] ∧
    dictGet (config_update [("enabled", (1 : ℤ)), ("alert_interval", 60)]
        [("enabled", 0), ("bogus", 7)]) "bogus" = none ∧
    dictGet (config_update [("enabled", (1 : ℤ)), ("alert_interval", 60)]
        [("enabled", 0), ("bogus", 7)]) "alert_interval" = some 60 := by
  have h := config_update_assigns_only_existing_keys ℤ
    [("enabled", (1 : ℤ)), ("alert_interval", 60)] [("enabled", 0), ("bogus", 7)]
  refine ⟨h.1.trans (by decide), h.2.1 "bogus" (by decide), (h.2.2 "alert_interval" ?_).trans (by decide)⟩
  intro v hv
  rcases List.mem_cons.mp hv with h1 | h1
  · have h1' : "alert_interval" = "enabled" := congrArg Prod.fst h1
    exact absurd h1' (by decide)
  · rcases List.mem_cons.mp h1 with h2 | h2
    · have h2' : "alert_interval" = "bogus" := congrArg Prod.fst h2
      exact absurd h2' (by decide)
    · exact absurd h2 (List.not_mem_nil _)

/-! ## Temperature history lemmas (C2) -/

theorem trim_history_of_le (size : ℤ) (h : List ℤ) (hle : (h.length : ℤ) ≤ size) :
    trim_history size h = h := by
  have hn : h.length ≤ size.toNat := by omega
  simp [trim_history, Nat.sub_eq_zero_of_le hn]

theorem foldl_cpu_hist_update_of_fits (size : ℤ) (xs acc : List ℤ)
    (hlen : (acc.length : ℤ) + (xs.length : ℤ) ≤ size) :
    (xs.map some).foldl (cpu_hist_update size) acc = acc ++ xs := by
  induction xs generalizing acc with
  | nil => simp
  | cons x rest ih =>
    simp only [List.length_cons] at hlen
    simp only [List.map_cons, List.foldl_cons]
    have hacc : ((acc ++ [x]).length : ℤ) + (rest.length : ℤ) ≤ size := by
      simp only [List.length_append, List.length_singleton]
      push_cast at hlen ⊢
      omega
    have hstep : cpu_hist_update size acc (some x) = acc ++ [x] := by
      simp only [cpu_hist_update]
      apply trim_history_of_le
      simp only [List.length_append, List.length_singleton]
      push_cast at hlen ⊢
      omega
    rw [hstep, ih _ hacc]
    simp

theorem foldl_disk_hist_update_of_fits (size : ℤ) (xs acc : List ℤ)
    (hlen : (acc.length : ℤ) + (xs.length : ℤ) ≤ size) :
    (xs.map some).foldl (disk_hist_update size) acc = acc ++ xs := by
  induction xs generalizing acc with
  | nil => simp
  | cons x rest ih =>
    simp only [List.length_cons] at hlen
    simp only [List.map_cons, List.foldl_cons]
    have hacc : ((acc ++ [x]).length : ℤ) + (rest.length : ℤ) ≤ size := by
      simp only [List.length_append, List.length_singleton]
      push_cast at hlen ⊢
      omega
    have hstep : disk_hist_update size acc (some x) = acc ++ [x] := by
      simp only [disk_hist_update]
      apply trim_history_of_le
      simp only [List.length_append, List.length_singleton]
      push_cast at hlen ⊢
      omega
    rw [hstep, ih _ hacc]
    simp

theorem calc_avg_of_all_pos (xs : List ℤ) (hpos : ∀ x ∈ xs, 0 < x) (hne : xs ≠ []) :
    _calc_avg xs = some (Int.fdiv xs.sum xs.length) := by
  have hf : xs.filter (fun t => 0 < t) = xs := by
    rw [List.filter_eq_self]
    intro a ha
    simpa using hpos a ha
  simp only [_calc_avg, hf]
  rw [if_neg]
  simpa [List.isEmpty_iff] using hne

/-- C2, amended: the history/averaging semantics of the engine.  After
feeding `k ≤ N` valid (`> 0`) samples into an empty window the average is
`floor(sum/k)` (both for the CPU and for a disk); an absent *disk* reading
clears that disk's entire window, so every subsequent average ignores all
pre-clear entries; the average is "no data" when there are no valid
entries; but — against the original claim — an absent *CPU* reading leaves
the CPU window unchanged (the cycle is merely skipped), only disk sources
are cleared.  `_read_temps` applies exactly these updates. -/
theorem history_average_and_clear_semantics :
    (∀ (size : ℤ) (xs : List ℤ), (∀ x ∈ xs, 0 < x) → (xs.length : ℤ) ≤ size → xs ≠ [] →
      (xs.map some).foldl (cpu_hist_update size) [] = xs ∧
      (xs.map some).foldl (disk_hist_update size) [] = xs ∧
      _calc_avg xs = some (Int.fdiv xs.sum xs.length)) ∧
    (∀ (size : ℤ) (h : List ℤ) (ys : List (Option ℤ)),
      ((none :: ys).foldl (disk_hist_update size) h =
        ys.foldl (disk_hist_update size) [])) ∧
    (∀ (size : ℤ) (h : List ℤ), cpu_hist_update size h none = h) ∧
    (∀ hist : List ℤ, hist.filter (fun t => 0 < t) = [] → _calc_avg hist = none) ∧
    (∀ (s : ControllerState) (env : CycleEnv),
      (_read_temps s env).cpu_temp_history =
        cpu_hist_update s.config.temp_history_size s.cpu_temp_history env.cpu_temp) := by
  refine ⟨?_, ?_, ?_, ?_, ?_⟩
  · intro size xs hpos hlen hne
    refine ⟨?_, ?_, calc_avg_of_all_pos xs hpos hne⟩
    · rw [foldl_cpu_hist_update_of_fits size xs [] (by simpa using hlen)]
      simp
    · rw [foldl_disk_hist_update_of_fits size xs [] (by simpa using hlen)]
      simp
  · intro size h ys
    simp [disk_hist_update]
  · intro size h
    rfl
  · intro hist hf
    simp [_calc_avg, hf]
  · intro s env
    rfl

/-- Witness for C2 (amended) at history size 4 and samples `[40, 42, 44]`:
the window holds the three samples and the average is `⌊126/3⌋ = 42`. -/
theorem history_average_and_clear_semantics_witness :
    ([40, 42, 44].map some).foldl (cpu_hist_update 4) [] = [40, 42, 44] ∧
    _calc_avg [40, 42, 44] = some 42 := by
  have h := history_average_and_clear_semantics.1 4 [40, 42, 44]
    (by decide) (by decide) (by decide)
  exact ⟨h.1, h.2.2.trans (by decide)⟩

/-- The state of the C2 counterexample: a CPU history holding one sample. -/
def c2_state : ControllerState where
  config := default_config
  disks := []
  cpu_temp_history := [40]
  disk_temp_history := []
  warmup_counter := 4
  is_warmed_up := true
  last_alert_time_cpu := 0
  last_alert_time_disk := []
  status := init_status

/-- The environment of the C2 counterexample: the CPU read fails. -/
def c2_env : CycleEnv where
  cpu_temp := none
  disk_temp := fun _ => none
  fan_rpm := none
  current_pwm := none
  now := 0

/-- Counterexample to C2 as stated: with the CPU window holding `[40]`, an
absent CPU reading does *not* clear the window — `_read_temps` keeps the
entry and the subsequent average still uses it (`some 40` instead of the
claimed "no data"). -/
theorem cpu_history_not_cleared_on_absent_cex :
    (_read_temps c2_state c2_env).cpu_temp_history = [40] ∧
    (_read_temps c2_state c2_env).status.cpu_avg_temp = some 40 := by
  exact ⟨rfl, rfl⟩

/-! ## Disabled cycles (C9) -/

/-- C9, amended: when automatic control is administratively disabled, a
warmed-up control cycle still samples temperatures and updates the status
snapshot (the resulting state is exactly the `_read_temps` state), but it
returns immediately after the disabled check: steps 4-8 are all skipped —
no safety fallback, no target computation, no hysteresis, no actuation
(`writes = []`) and, against the original claim, also no alert check
(`pushes = []`, alert clocks untouched). -/
theorem disabled_cycle_only_samples (s : ControllerState) (env : CycleEnv)
    (hw : s.is_warmed_up = true) (hd : s.config.enabled = false) :
    _control_cycle s env = ⟨_read_temps s env, [], []⟩ := by
  have h1 : (_read_temps s env).is_warmed_up = true := hw
  have h2 : (_read_temps s env).config.enabled = false := hd
  simp only [_control_cycle, cycle_after_warmup, h1, h2]
  simp

/-- The disabled controller state of the C9 counterexample: warmed up, hot
CPU history, alerting enabled, automatic control disabled. -/
def c9_state : ControllerState where
  config := { default_config with enabled := false }
  disks := []
  cpu_temp_history := [70, 70, 70]
  disk_temp_history := []
  warmup_counter := 4
  is_warmed_up := true
  last_alert_time_cpu := 0
  last_alert_time_disk := []
  status := init_status

/-- The environment of the C9 counterexample: CPU reads 70°C (average 70 ≥
alert threshold 62) at a time far past any cooldown. -/
def c9_env : CycleEnv where
  cpu_temp := some 70
  disk_temp := fun _ => none
  fan_rpm := some 1200
  current_pwm := some 100
  now := 1000000

/-- Counterexample to C9 as stated: in a disabled cycle with a breaching
CPU average (70°C ≥ 62°C threshold, alerting enabled, cooldown long
expired) no notification is pushed — the alert check of step 8 is *not*
performed while disabled; the identical cycle with control enabled does
push the alert. -/
theorem disabled_cycle_skips_alert_cex :
    (_control_cycle c9_state c9_env).pushes = [] ∧
    (_read_temps c9_state c9_env).status.cpu_avg_temp = some 70 ∧
    c9_state.config.alert_enabled = true ∧
    c9_state.config.cpu_alert_temp = 62 ∧
    (_control_cycle { c9_state with config := { c9_state.config with enabled := true } }
      c9_env).pushes = ["[MainNAS]: 🔥 CPU: 70°C | RPM: 1200"] := by
  exact ⟨rfl, rfl, rfl, rfl, rfl⟩

/-- Witness for C9 (amended) at the concrete disabled state: the cycle is
exactly sampling, with no writes and no pushes. -/
theorem disabled_cycle_only_samples_witness :
    _control_cycle c9_state c9_env = ⟨_read_temps c9_state c9_env, [], []⟩ :=
  disabled_cycle_only_samples c9_state c9_env rfl rfl

/-! ## Alert throttle (C7) -/

theorem intercalate_single (x : String) : String.intercalate ", " [x] = x := by
  rfl

theorem check_alert_cpu_only (cfg : FanConfig) (st : Status) (last t : ℤ)
    (hen : cfg.alert_enabled = true) (hd : st.disk_avg_temps = [])
    (hb : truthy_ge st.cpu_avg_temp cfg.cpu_alert_temp = true) :
    _check_temp_alert cfg st last [] t =
      if cfg.alert_interval ≤ t - last then
        ⟨[cpu_alert_msg cfg.alert_hostname (st.cpu_avg_temp.getD 0) (rpm_str st.fan_rpm)],
         t, []⟩
      else ⟨[], last, []⟩ := by
  by_cases hi : cfg.alert_interval ≤ t - last
  · simp [_check_temp_alert, hen, hd, hb, hi]
  · simp [_check_temp_alert, hen, hd, hb, hi]

theorem check_alert_single_disk (cfg : FanConfig) (st : Status)
    (last_cpu : ℤ) (last_disk : List (String × ℤ)) (id : String) (v t : ℤ)
    (hen : cfg.alert_enabled = true)
    (hcpu : truthy_ge st.cpu_avg_temp cfg.cpu_alert_temp = false)
    (hd : st.disk_avg_temps = [(id, some v)]) (hv : v ≠ 0)
    (hthr : cfg.disk_alert_temp ≤ v) :
    _check_temp_alert cfg st last_cpu last_disk t =
      if cfg.alert_interval ≤ t - dictGetD last_disk id 0 then
        ⟨[disk_alert_msg cfg.alert_hostname (disk_alert_entry id v) (rpm_str st.fan_rpm)],
         last_cpu, dictInsert last_disk id t⟩
      else ⟨[], last_cpu, last_disk⟩ := by
  by_cases hi : cfg.alert_interval ≤ t - dictGetD last_disk id 0
  · simp [_check_temp_alert, disk_alert_step, hen, hd, hcpu, hv, hthr, hi,
      intercalate_single]
  · simp [_check_temp_alert, disk_alert_step, hen, hd, hcpu, hv, hthr, hi]

/-- C7, amended: for a fixed alert source (the CPU, or one disk id) with
its own cooldown clock, starting from the initial (zero) last-fired time:
the first breach fires exactly when at least `cooldown_seconds` of clock
time have passed since time zero (so on a realistic wall clock it always
fires, but not unconditionally — this is the amendment); given the first
breach fired, a second breach within `cooldown_seconds` of it produces no
further notification (exactly one in total), while a second breach spaced
`>= cooldown_seconds` apart also notifies (two in total). -/
theorem alert_throttle_per_source (cfg : FanConfig) (t1 t2 : ℤ)
    (hen : cfg.alert_enabled = true) :
    (∀ st : Status, truthy_ge st.cpu_avg_temp cfg.cpu_alert_temp = true →
      st.disk_avg_temps = [] →
      ((_check_temp_alert cfg st 0 [] t1).pushes.length =
        if cfg.alert_interval ≤ t1 then 1 else 0) ∧
      (cfg.alert_interval ≤ t1 →
        (_check_temp_alert cfg st 0 [] t1).pushes.length +
          (_check_temp_alert cfg st
            (_check_temp_alert cfg st 0 [] t1).last_alert_time_cpu [] t2).pushes.length =
          if cfg.alert_interval ≤ t2 - t1 then 2 else 1)) ∧
    (∀ (st : Status) (id : String) (v : ℤ),
      truthy_ge st.cpu_avg_temp cfg.cpu_alert_temp = false →
      st.disk_avg_temps = [(id, some v)] → v ≠ 0 → cfg.disk_alert_temp ≤ v →
      ((_check_temp_alert cfg st 0 [] t1).pushes.length =
        if cfg.alert_interval ≤ t1 then 1 else 0) ∧
      (cfg.alert_interval ≤ t1 →
        (_check_temp_alert cfg st 0 [] t1).pushes.length +
          (_check_temp_alert cfg st 0
            (_check_temp_alert cfg st 0 [] t1).last_alert_time_disk t2).pushes.length =
          if cfg.alert_interval ≤ t2 - t1 then 2 else 1)) := by
  constructor
  · intro st hb hd
    have h1 := check_alert_cpu_only cfg st 0 t1 hen hd hb
    rw [sub_zero] at h1
    constructor
    · rw [h1]
      by_cases hi : cfg.alert_interval ≤ t1 <;> simp [hi]
    · intro ht1
      rw [h1, if_pos ht1]
      have h2 := check_alert_cpu_only cfg st t1 t2 hen hd hb
      simp only [h2, if_pos ht1]
      by_cases hi : cfg.alert_interval ≤ t2 - t1 <;> simp [hi]
  · intro st id v hcpu hd hv hthr
    have hg0 : dictGetD ([] : List (String × ℤ)) id 0 = 0 := rfl
    have h1 := check_alert_single_disk cfg st 0 [] id v t1 hen hcpu hd hv hthr
    rw [hg0, sub_zero] at h1
    constructor
    · rw [h1]
      by_cases hi : cfg.alert_interval ≤ t1 <;> simp [hi]
    · intro ht1
      rw [h1, if_pos ht1]
      have hgt : dictGetD (dictInsert ([] : List (String × ℤ)) id t1) id 0 = t1 := by
        simp [dictGetD, dictGet, dictInsert]
      have h2 := check_alert_single_disk cfg st 0 (dictInsert [] id t1) id v t2 hen hcpu
        hd hv hthr
      rw [hgt] at h2
      simp only [h1, if_pos ht1, h2]
      by_cases hi : cfg.alert_interval ≤ t2 - t1 <;> simp [hi]

/-- The status of the C7 scenarios: a breaching CPU average of 70°C. -/
def c7_status : Status :=
  { init_status with cpu_avg_temp := some 70 }

/-- Counterexample to C7 as stated ("the first breach always fires"): with
the default configuration (cooldown 60 s) and a breaching CPU average, a
first breach at clock time 0 produces no notification, because the
last-fired time is initialised to 0 and `0 - 0 >= 60` fails. -/
theorem first_breach_throttled_at_time_zero_cex :
    truthy_ge c7_status.cpu_avg_temp default_config.cpu_alert_temp = true ∧
    default_config.alert_enabled = true ∧
    (_check_temp_alert default_config c7_status 0 [] 0).pushes = [] := by
  exact ⟨rfl, rfl, rfl⟩

/-- Witness for C7 (amended): first breach at t=100 fires (100 ≥ 60); a
second breach at t=130 (within the 60 s cooldown) adds no notification. -/
theorem alert_throttle_per_source_witness :
    (_check_temp_alert default_config c7_status 0 [] 100).pushes.length = 1 ∧
    (_check_temp_alert default_config c7_status 0 [] 100).pushes.length +
      (_check_temp_alert default_config c7_status
        (_check_temp_alert default_config c7_status 0 [] 100).last_alert_time_cpu
        [] 130).pushes.length = 1 := by
  have h := (alert_throttle_per_source default_config 100 130 rfl).1 c7_status rfl rfl
  exact ⟨h.1.trans (by decide), (h.2 (by decide)).trans (by decide)⟩

/-! ## Per-cycle alert coverage (C8) -/

theorem dictGet_dictInsert_ne {α : Type} (d : List (String × α)) (k k' : String) (v : α)
    (h : k ≠ k') : dictGet (dictInsert d k v) k' = dictGet d k' := by
  unfold dictInsert
  by_cases hk : d.any (fun kv => kv.1 = k)
  · rw [if_pos hk]
    exact dictGet_pySetattr_ne d k' k v h
  · rw [if_neg hk]
    simp only [dictGet, List.find?_append]
    have : List.find? (fun kv => decide (kv.1 = k')) [(k, v)] = none := by
      simp [h]
    rw [this]
    simp

theorem dictGetD_dictInsert_ne {α : Type} (d : List (String × α)) (k k' : String)
    (v x : α) (h : k ≠ k') : dictGetD (dictInsert d k v) k' x = dictGetD d k' x := by
  simp only [dictGetD, dictGet_dictInsert_ne d k k' v h]

/-- What `disk_alert_step` contributes for one disk entry, expressed
against a fixed (pre-cycle) set of cooldown clocks. -/
def disk_alert_test (interval now thr : ℤ) (ld : List (String × ℤ))
    (entry : String × Option ℤ) : Option String :=
  match entry.2 with
  | some temp =>
    if temp ≠ 0 ∧ thr ≤ temp ∧ interval ≤ now - dictGetD ld entry.1 0 then
      some (disk_alert_entry entry.1 temp)
    else none
  | none => none

theorem foldl_disk_alert_step_fst (interval now thr : ℤ) (entries : List (String × Option ℤ))
    (msgs : List String) (ld : List (String × ℤ))
    (hnd : (entries.map Prod.fst).Nodup) :
    (entries.foldl (disk_alert_step interval now thr) (msgs, ld)).1 =
      msgs ++ entries.filterMap (disk_alert_test interval now thr ld) := by
  induction entries generalizing msgs ld with
  | nil => simp
  | cons e rest ih =>
    simp only [List.map_cons, List.nodup_cons] at hnd
    obtain ⟨hknotin, hndrest⟩ := hnd
    simp only [List.foldl_cons, List.filterMap_cons]
    have hcong : ∀ ld' : List (String × ℤ),
        (∀ k, k ∈ rest.map Prod.fst → dictGetD ld' k 0 = dictGetD ld k 0) →
        rest.filterMap (disk_alert_test interval now thr ld') =
          rest.filterMap (disk_alert_test interval now thr ld) := by
      intro ld' hsame
      apply List.filterMap_congr
      intro x hx
      have hxk : dictGetD ld' x.1 0 = dictGetD ld x.1 0 :=
        hsame x.1 (List.mem_map_of_mem Prod.fst hx)
      simp only [disk_alert_test, hxk]
    rcases he : e.2 with _ | v
    · have hstep : disk_alert_step interval now thr (msgs, ld) e = (msgs, ld) := by
        simp [disk_alert_step, he]
      have htest : disk_alert_test interval now thr ld e = none := by
        simp [disk_alert_test, he]
      rw [hstep, htest, ih msgs ld hndrest]
    · by_cases hcond : v ≠ 0 ∧ thr ≤ v
      · by_cases hthr : interval ≤ now - dictGetD ld e.1 0
        · have hstep : disk_alert_step interval now thr (msgs, ld) e =
              (msgs ++ [disk_alert_entry e.1 v], dictInsert ld e.1 now) := by
            simp [disk_alert_step, he, hcond, hthr]
          have htest : disk_alert_test interval now thr ld e =
              some (disk_alert_entry e.1 v) := by
            simp [disk_alert_test, he, hcond.1, hcond.2, hthr]
          rw [hstep, htest, ih _ _ hndrest]
          rw [hcong (dictInsert ld e.1 now) ?_]
          · simp
          · intro k hkmem
            have hne : e.1 ≠ k := fun hh => hknotin (hh ▸ hkmem)
            exact dictGetD_dictInsert_ne ld e.1 k now 0 hne
        · have hstep : disk_alert_step interval now thr (msgs, ld) e = (msgs, ld) := by
            simp only [disk_alert_step, he]
            rw [if_pos hcond, if_neg hthr]
          have htest : disk_alert_test interval now thr ld e = none := by
            simp only [disk_alert_test, he]
            rw [if_neg]
            intro hc
            exact hthr hc.2.2
          rw [hstep, htest, ih msgs ld hndrest]
      · have hstep : disk_alert_step interval now thr (msgs, ld) e = (msgs, ld) := by
          simp only [disk_alert_step, he]
          rw [if_neg hcond]
        have htest : disk_alert_test interval now thr ld e = none := by
          simp only [disk_alert_test, he]
          rw [if_neg]
          intro hc
          exact hcond ⟨hc.1, hc.2.1⟩
        rw [hstep, htest, ih msgs ld hndrest]

theorem dictInsert_fresh {α : Type} (d : List (String × α)) (k : String) (v : α)
    (h : ¬ k ∈ d.map Prod.fst) : dictInsert d k v = d ++ [(k, v)] := by
  unfold dictInsert
  rw [if_neg]
  simp only [List.any_eq_true, not_exists, not_and, decide_eq_true_eq]
  push_neg
  intro kv hkv
  intro hh
  exact h (hh ▸ List.mem_map_of_mem Prod.fst hkv)

theorem read_temps_disk_avg_keys_aux (size : ℤ) (env : CycleEnv) :
    ∀ (disks : List DiskInfo) (acc : DiskReadAcc),
    (∀ d ∈ disks, ¬ d.id ∈ acc.disk_avg_temps.map Prod.fst) →
    (disks.map DiskInfo.id).Nodup →
    (disks.foldl (read_one_disk size env) acc).disk_avg_temps.map Prod.fst =
      acc.disk_avg_temps.map Prod.fst ++ disks.map DiskInfo.id := by
  intro disks
  induction disks with
  | nil => intro acc _ _; simp
  | cons d rest ih =>
    intro acc hfresh hnd
    simp only [List.map_cons, List.nodup_cons] at hnd
    obtain ⟨hdnotin, hndrest⟩ := hnd
    simp only [List.foldl_cons, List.map_cons]
    have hfd : ¬ d.id ∈ acc.disk_avg_temps.map Prod.fst :=
      hfresh d (List.mem_cons_self d rest)
    have hkeys : (read_one_disk size env acc d).disk_avg_temps.map Prod.fst =
        acc.disk_avg_temps.map Prod.fst ++ [d.id] := by
      simp only [read_one_disk]
      rw [dictInsert_fresh _ _ _ hfd]
      simp
    rw [ih (read_one_disk size env acc d) ?_ hndrest, hkeys]
    · simp
    · intro d' hd'
      rw [hkeys]
      simp only [List.mem_append, List.mem_singleton]
      push_neg
      constructor
      · exact hfresh d' (List.mem_cons_of_mem d hd')
      · intro hh
        exact hdnotin (hh ▸ List.mem_map_of_mem DiskInfo.id hd')

/-- C8, amended: each cycle's alert step compares the CPU average against
the CPU alert threshold and *every* disk's recorded average — active and
inactive alike, since `_read_temps` records an average for every known
disk and `_check_temp_alert` never consults the active flag — against the
disk alert threshold.  CPU breach messages are individual, while all disk
breaches passing their own throttle in the same cycle are coalesced into a
single message listing the newly-alerting disks. -/
theorem alert_check_covers_all_disks (cfg : FanConfig) (st : Status)
    (last_cpu : ℤ) (last_disk : List (String × ℤ)) (now : ℤ)
    (hen : cfg.alert_enabled = true)
    (hnd : (st.disk_avg_temps.map Prod.fst).Nodup) :
    ((_check_temp_alert cfg st last_cpu last_disk now).pushes =
      (if truthy_ge st.cpu_avg_temp cfg.cpu_alert_temp
          ∧ cfg.alert_interval ≤ now - last_cpu then
        [cpu_alert_msg cfg.alert_hostname (st.cpu_avg_temp.getD 0) (rpm_str st.fan_rpm)]
      else []) ++
      (if st.disk_avg_temps.filterMap
            (disk_alert_test cfg.alert_interval now cfg.disk_alert_temp last_disk) = []
        then []
        else [disk_alert_msg cfg.alert_hostname
          (String.intercalate ", " (st.disk_avg_temps.filterMap
            (disk_alert_test cfg.alert_interval now cfg.disk_alert_temp last_disk)))
          (rpm_str st.fan_rpm)])) ∧
    (∀ (s : ControllerState) (env : CycleEnv), (s.disks.map DiskInfo.id).Nodup →
      (_read_temps s env).status.disk_avg_temps.map Prod.fst = s.disks.map DiskInfo.id) := by
  constructor
  · have hfold := foldl_disk_alert_step_fst cfg.alert_interval now cfg.disk_alert_temp
      st.disk_avg_temps [] last_disk hnd
    simp only [List.nil_append] at hfold
    by_cases hc : truthy_ge st.cpu_avg_temp cfg.cpu_alert_temp
        ∧ cfg.alert_interval ≤ now - last_cpu
    · simp [_check_temp_alert, hen, hc, hc.1, hc.2]
      rw [hfold]
    · rcases not_and_or.mp hc with h1 | h1
      · have h1' : truthy_ge st.cpu_avg_temp cfg.cpu_alert_temp = false :=
          Bool.not_eq_true _ ▸ Bool.of_not_eq_true h1
        simp [_check_temp_alert, hen, hc, h1']
        rw [hfold]
      · by_cases h2 : truthy_ge st.cpu_avg_temp cfg.cpu_alert_temp
        · simp [_check_temp_alert, hen, hc, h1, h2]
          rw [hfold]
        · have h2' : truthy_ge st.cpu_avg_temp cfg.cpu_alert_temp = false :=
            Bool.not_eq_true _ ▸ Bool.of_not_eq_true h2
          simp [_check_temp_alert, hen, hc, h1, h2']
          rw [hfold]
  · intro s env hnd'
    have h := read_temps_disk_avg_keys_aux s.config.temp_history_size env s.disks
      { disks := [], disk_temps := [], disk_avg_temps := [],
        hist := s.disk_temp_history, max_disk_temp := none }
      (by intro d _; simp) hnd'
    simpa [_read_temps] using h

/-- The warmed-up state of the C8 counterexample: one known disk which is
*inactive*, with a hot rolling history; a cool but valid CPU. -/
def c8_state : ControllerState where
  config := default_config
  disks := [{ id := "Disk1", device := "sda", active := false, temp := none }]
  cpu_temp_history := [30, 30, 30]
  disk_temp_history := [("Disk1", [50, 50, 50])]
  warmup_counter := 4
  is_warmed_up := true
  last_alert_time_cpu := 0
  last_alert_time_disk := []
  status := init_status

/-- The environment of the C8 counterexample. -/
def c8_env : CycleEnv where
  cpu_temp := some 30
  disk_temp := fun _ => some 50
  fan_rpm := some 1000
  current_pwm := some 100
  now := 1000000

/-- Counterexample to C8 as stated: the single known disk is inactive
(`active = false`) yet its 50°C average (≥ 42°C threshold) *is*
alert-checked — the enabled, warmed-up cycle pushes a disk alert naming
it, where the claim says inactive disks' averages are not alert-checked. -/
theorem inactive_disk_alert_checked_cex :
    c8_state.disks.map DiskInfo.active = [false] ∧
    (_control_cycle c8_state c8_env).pushes = ["[MainNAS]: 🔥 Disk1: 50°C | RPM: 1000"] := by
  exact ⟨rfl, rfl⟩

/-- Witness for C8 (amended) at a concrete status: the inactive disk's
entry passes the threshold and throttle test and is pushed as one
coalesced disk message; `_read_temps` records an average entry for the
(inactive) disk. -/
theorem alert_check_covers_all_disks_witness :
    (_check_temp_alert default_config
      { init_status with
        cpu_avg_temp := some 30, fan_rpm := some 1000,
        disk_avg_temps := [("Disk1", some 50)] } 0 [] 1000000).pushes =
      ["[MainNAS]: 🔥 Disk1: 50°C | RPM: 1000"] ∧
    (_read_temps c8_state c8_env).status.disk_avg_temps.map Prod.fst = ["Disk1"] := by
  have h := alert_check_covers_all_disks default_config
    { init_status with
      cpu_avg_temp := some 30, fan_rpm := some 1000,
      disk_avg_temps := [("Disk1", some 50)] } 0 [] 1000000 rfl (by decide)
  exact ⟨h.1.trans (by decide), h.2 c8_state c8_env (by decide)⟩

/-! ## Rational truncation and `linear_map` lemmas (C5, C6) -/

theorem ratTrunc_mono {q r : ℚ} (h : q ≤ r) : ratTrunc q ≤ ratTrunc r := by
  unfold ratTrunc
  by_cases hq : q < 0
  · by_cases hr : r < 0
    · simp only [hq, hr, if_pos]
      exact Int.ceil_le_ceil h
    · simp only [hq, if_pos, hr, if_neg]
      calc ⌈q⌉ ≤ 0 := Int.ceil_le.mpr (by exact_mod_cast le_of_lt hq)
        _ ≤ ⌊r⌋ := Int.floor_nonneg.mpr (not_lt.mp hr)
  · have hr : ¬ r < 0 := fun hh => hq (lt_of_le_of_lt h hh)
    simp only [hq, hr, if_neg]
    exact Int.floor_le_floor h

theorem ratTrunc_intCast_div (x m : ℤ) (hm : 0 < m) :
    ratTrunc ((x : ℚ) / (m : ℚ)) = Int.tdiv x m := by
  have hmq : (0 : ℚ) < (m : ℚ) := by exact_mod_cast hm
  have hmnat : ((m.toNat : ℕ) : ℤ) = m := Int.toNat_of_nonneg (le_of_lt hm)
  have hcast : ((m : ℚ)) = ((m.toNat : ℕ) : ℚ) := by
    norm_cast
    omega
  by_cases hx : 0 ≤ x
  · have hq : (0 : ℚ) ≤ (x : ℚ) / (m : ℚ) := by positivity
    have hnl : ¬ ((x : ℚ) / (m : ℚ) < 0) := not_lt.mpr hq
    rw [ratTrunc, if_neg hnl, hcast, Rat.floor_intCast_div_natCast, hmnat,
      Int.tdiv_eq_ediv hx (le_of_lt hm)]
  · push_neg at hx
    have hq : (x : ℚ) / (m : ℚ) < 0 := by
      apply div_neg_of_neg_of_pos _ hmq
      exact_mod_cast hx
    have hneg : ((x : ℚ)) / ((m : ℚ)) = -(((-x : ℤ) : ℚ) / ((m.toNat : ℕ) : ℚ)) := by
      rw [← hcast]
      push_cast
      ring
    rw [ratTrunc, if_pos hq, hneg, Int.ceil_neg, Rat.floor_intCast_div_natCast, hmnat,
      ← Int.tdiv_eq_ediv (by omega : (0 : ℤ) ≤ -x) (le_of_lt hm), ← Int.neg_tdiv, neg_neg]

/-- The claim's literal interpolation formula:
`p1.pwm + (temp - p1.temp)/(p2.temp - p1.temp) * (p2.pwm - p1.pwm)` computed
over the rationals, truncated to an integer and clamped to the segment's
PWM range. -/
def interp_formula (temp : ℤ) (p1 p2 : CurvePoint) : ℤ :=
  max p1.pwm (min p2.pwm
    (ratTrunc ((p1.pwm : ℚ) +
      ((temp : ℚ) - (p1.temp : ℚ)) / ((p2.temp : ℚ) - (p1.temp : ℚ)) *
        ((p2.pwm : ℚ) - (p1.pwm : ℚ)))))

/-- The executable `linear_map` (one truncated integer fraction) computes
exactly the literal rational interpolation formula. -/
theorem linear_map_eq_formula (temp : ℤ) (p1 p2 : CurvePoint) (h : p1.temp < p2.temp) :
    linear_map temp p1.temp p2.temp p1.pwm p2.pwm = interp_formula temp p1 p2 := by
  have hne : ¬ p2.temp ≤ p1.temp := not_le.mpr h
  have hm : (0 : ℤ) < p2.temp - p1.temp := by omega
  have hmq : ((p2.temp : ℚ) - (p1.temp : ℚ)) ≠ 0 := by
    have : (0 : ℚ) < (p2.temp : ℚ) - (p1.temp : ℚ) := by
      exact_mod_cast hm
    exact ne_of_gt this
  have hkey : Int.tdiv
      (p1.pwm * (p2.temp - p1.temp) + (temp - p1.temp) * (p2.pwm - p1.pwm))
      (p2.temp - p1.temp) =
      ratTrunc ((p1.pwm : ℚ) +
        ((temp : ℚ) - (p1.temp : ℚ)) / ((p2.temp : ℚ) - (p1.temp : ℚ)) *
          ((p2.pwm : ℚ) - (p1.pwm : ℚ))) := by
    rw [← ratTrunc_intCast_div _ _ hm]
    congr 1
    push_cast
    field_simp
  unfold linear_map interp_formula
  rw [if_neg hne]
  show max p1.pwm (min p2.pwm (Int.tdiv
      (p1.pwm * (p2.temp - p1.temp) + (temp - p1.temp) * (p2.pwm - p1.pwm))
      (p2.temp - p1.temp))) = _
  rw [hkey]

theorem linear_map_lower (value in_min in_max out_min out_max : ℤ) :
    out_min ≤ linear_map value in_min in_max out_min out_max := by
  unfold linear_map
  by_cases hc : in_max ≤ in_min
  · simp [hc]
  · simp only [hc, if_false]
    exact le_max_left _ _

theorem linear_map_upper (value in_min in_max out_min out_max : ℤ)
    (h : out_min ≤ out_max) :
    linear_map value in_min in_max out_min out_max ≤ out_max := by
  unfold linear_map
  by_cases hc : in_max ≤ in_min
  · simp only [hc, if_true]
    exact h
  · simp only [hc, if_false]
    exact max_le h (min_le_left _ _)

theorem linear_map_le_255 (value in_min in_max out_min out_max : ℤ)
    (h1 : out_min ≤ 255) (h2 : out_max ≤ 255) :
    linear_map value in_min in_max out_min out_max ≤ 255 := by
  unfold linear_map
  by_cases hc : in_max ≤ in_min
  · simp only [hc, if_true]
    exact h1
  · simp only [hc, if_false]
    exact max_le h1 (le_trans (min_le_left _ _) h2)

theorem linear_map_mono (v1 v2 in_min in_max out_min out_max : ℤ)
    (hout : out_min ≤ out_max) (hv : v1 ≤ v2) :
    linear_map v1 in_min in_max out_min out_max ≤
      linear_map v2 in_min in_max out_min out_max := by
  unfold linear_map
  by_cases hc : in_max ≤ in_min
  · simp [hc]
  · simp only [hc, if_false]
    have hm : (0 : ℤ) < in_max - in_min := by omega
    have htd : Int.tdiv (out_min * (in_max - in_min) + (v1 - in_min) * (out_max - out_min))
        (in_max - in_min) ≤
        Int.tdiv (out_min * (in_max - in_min) + (v2 - in_min) * (out_max - out_min))
        (in_max - in_min) := by
      rw [← ratTrunc_intCast_div _ _ hm, ← ratTrunc_intCast_div _ _ hm]
      apply ratTrunc_mono
      have hmq : (0 : ℚ) < ((in_max - in_min : ℤ) : ℚ) := by exact_mod_cast hm
      apply div_le_div_of_nonneg_right _ (le_of_lt hmq)
      have hmul : ((v1 - in_min) * (out_max - out_min) : ℤ) ≤
          ((v2 - in_min) * (out_max - out_min) : ℤ) := by
        apply mul_le_mul_of_nonneg_right (by omega) (by omega)
      have hsum : (out_min * (in_max - in_min) + (v1 - in_min) * (out_max - out_min) : ℤ) ≤
          (out_min * (in_max - in_min) + (v2 - in_min) * (out_max - out_min) : ℤ) := by
        omega
      exact_mod_cast hsum
    exact max_le_max (le_refl out_min) (min_le_min (le_refl out_max) htd)

/-! ## Curve evaluation (C5) -/

theorem curve_interp_bracket (l1 : List CurvePoint) (p1 p2 : CurvePoint)
    (l2 : List CurvePoint) (temp : ℤ)
    (hs : List.Sorted curveLe (l1 ++ p1 :: p2 :: l2))
    (h1 : p1.temp < temp) (h2 : temp ≤ p2.temp) :
    curve_interp temp (l1 ++ p1 :: p2 :: l2) =
      (linear_map temp p1.temp p2.temp p1.pwm p2.pwm,
       stage_of_pwm (linear_map temp p1.temp p2.temp p1.pwm p2.pwm)) := by
  induction l1 with
  | nil =>
    simp only [List.nil_append, curve_interp]
    rw [if_pos ⟨le_of_lt h1, h2⟩]
  | cons q l1' ih =>
    cases l1' with
    | nil =>
      simp only [List.nil_append, List.cons_append, curve_interp]
      rw [if_neg fun hc => absurd hc.2 (not_le.mpr h1),
        if_pos ⟨le_of_lt h1, h2⟩]
    | cons q' l1'' =>
      have hs' : List.Sorted curveLe ((q' :: l1'') ++ p1 :: p2 :: l2) := by
        simpa using hs.of_cons
      have hq'p1 : curveLe q' p1 := by
        apply List.rel_of_pairwise_cons hs'
        simp
      have hcond : ¬ (q.temp ≤ temp ∧ temp ≤ q'.temp) := by
        rintro ⟨_, hq'⟩
        exact absurd (le_trans hq' hq'p1) (not_le.mpr h1)
      have hgoal := ih hs'
      simp only [List.cons_append] at hgoal ⊢
      rw [curve_interp, if_neg hcond]
      exact hgoal

/-- C5: for every non-empty curve, `calculate_pwm_from_curve` sorts the
points by temperature (stably, like Python's `sorted`) and returns: the
minimum point's PWM with stage "idle" when `temp` is at most the minimum
temperature; the maximum point's PWM with stage "critical" when `temp` is
at least the maximum temperature (stated for curves whose minimum and
maximum temperatures differ — when they coincide, i.e. a single-point
curve at exactly its temperature, the idle rule fires first, as in the
code's check order); and otherwise (strictly between the extremes) the
literal interpolation formula
`p1.pwm + (temp - p1.temp)/(p2.temp - p1.temp) * (p2.pwm - p1.pwm)`
over the bracketing pair, truncated toward zero and clamped to the
segment's PWM range, with stage derived from the PWM bands <60 idle,
<120 work, <200 warning, else critical.  In particular, for the curve
`[(20,20),(40,50),(80,255)]`: temp 30 yields `(35, "idle")`, temp 85
yields `(255, "critical")`, temp 10 yields `(20, "idle")`. -/
theorem curve_evaluate_spec :
    (∀ (curve : List CurvePoint) (temp : ℤ) (p : CurvePoint) (ps : List CurvePoint),
      sortCurve curve = p :: ps →
      ((temp ≤ p.temp → calculate_pwm_from_curve temp curve = (p.pwm, "idle")) ∧
       (p.temp < (ps.getLastD p).temp → (ps.getLastD p).temp ≤ temp →
         calculate_pwm_from_curve temp curve = ((ps.getLastD p).pwm, "critical")) ∧
       (∀ (l1 : List CurvePoint) (p1 p2 : CurvePoint) (l2 : List CurvePoint),
         p :: ps = l1 ++ p1 :: p2 :: l2 → p1.temp < temp → temp ≤ p2.temp →
         temp < (ps.getLastD p).temp →
         calculate_pwm_from_curve temp curve =
           (interp_formula temp p1 p2, stage_of_pwm (interp_formula temp p1 p2))))) ∧
    calculate_pwm_from_curve 30 [⟨20, 20⟩, ⟨40, 50⟩, ⟨80, 255⟩] = (35, "idle") ∧
    calculate_pwm_from_curve 85 [⟨20, 20⟩, ⟨40, 50⟩, ⟨80, 255⟩] = (255, "critical") ∧
    calculate_pwm_from_curve 10 [⟨20, 20⟩, ⟨40, 50⟩, ⟨80, 255⟩] = (20, "idle") := by
  refine ⟨?_, by decide, by decide, by decide⟩
  intro curve temp p ps hsort
  have hs : List.Sorted curveLe (p :: ps) := by
    rw [← hsort]
    exact List.sorted_insertionSort curveLe curve
  have hne : curve.isEmpty = false := by
    cases curve with
    | nil => simp [sortCurve] at hsort
    | cons a l => rfl
  have heval : calculate_pwm_from_curve temp curve =
      (if temp ≤ p.temp then (p.pwm, "idle")
       else if (ps.getLastD p).temp ≤ temp then ((ps.getLastD p).pwm, "critical")
       else curve_interp temp (p :: ps)) := by
    unfold calculate_pwm_from_curve
    rw [hsort]
    simp [hne]
  refine ⟨?_, ?_, ?_⟩
  · intro h
    rw [heval, if_pos h]
  · intro hlt h
    have h0 : ¬ temp ≤ p.temp := by
      intro hc
      exact absurd (lt_of_le_of_lt (le_trans h hc) hlt) (lt_irrefl _)
    rw [heval, if_neg h0, if_pos h]
  · intro l1 p1 p2 l2 hdec h1 h2 hlast
    have hple : p.temp ≤ p1.temp := by
      cases l1 with
      | nil =>
        have : p = p1 := by
          simpa using congrArg (fun l => l.headD p) hdec
        rw [this]
      | cons a l1' =>
        have hpa : p = a := by
          simpa using congrArg (fun l => l.headD p) hdec
        have hmem : p1 ∈ l1' ++ p1 :: p2 :: l2 := by simp
        have : curveLe p p1 := by
          apply List.rel_of_pairwise_cons (hpa ▸ hdec ▸ hs)
          simp
        exact this
    have h0 : ¬ temp ≤ p.temp := not_le.mpr (lt_of_le_of_lt hple h1)
    have hlastn : ¬ (ps.getLastD p).temp ≤ temp := not_le.mpr hlast
    rw [heval, if_neg h0, if_neg hlastn]
    have hbr := curve_interp_bracket l1 p1 p2 l2 temp (hdec ▸ hs) h1 h2
    rw [← hdec] at hbr
    rw [hbr, linear_map_eq_formula temp p1 p2 (lt_of_lt_of_le h1 h2)]

/-- Witness for C5 at the example curve: the bracketing rule applies at
temp 30 in the segment `(20,20)-(40,50)`, and the idle rule at temp 10. -/
theorem curve_evaluate_spec_witness :
    calculate_pwm_from_curve 30 [⟨20, 20⟩, ⟨40, 50⟩, ⟨80, 255⟩] =
      (interp_formula 30 ⟨20, 20⟩ ⟨40, 50⟩,
       stage_of_pwm (interp_formula 30 ⟨20, 20⟩ ⟨40, 50⟩)) ∧
    calculate_pwm_from_curve 10 [⟨20, 20⟩, ⟨40, 50⟩, ⟨80, 255⟩] = (20, "idle") := by
  have h30 := curve_evaluate_spec.1 [⟨20, 20⟩, ⟨40, 50⟩, ⟨80, 255⟩] 30 ⟨20, 20⟩
    [⟨40, 50⟩, ⟨80, 255⟩] (by decide)
  have h10 := curve_evaluate_spec.1 [⟨20, 20⟩, ⟨40, 50⟩, ⟨80, 255⟩] 10 ⟨20, 20⟩
    [⟨40, 50⟩, ⟨80, 255⟩] (by decide)
  refine ⟨h30.2.2 [] ⟨20, 20⟩ ⟨40, 50⟩ [⟨80, 255⟩] (by decide) (by decide) (by decide)
    (by decide), h10.1 (by decide)⟩

/-! ## Monotonicity of curve evaluation (C6) -/

/-- Non-decreasing PWM order on curve points. -/
def pwmLe (p q : CurvePoint) : Prop :=
  p.pwm ≤ q.pwm

theorem pwm_head_le_getLastD (p : CurvePoint) (l : List CurvePoint)
    (h : List.Pairwise pwmLe (p :: l)) : p.pwm ≤ (l.getLastD p).pwm := by
  have hmem := List.getLastD_mem_cons l p
  rcases List.mem_cons.mp hmem with he | hm
  · rw [he]
  · exact List.rel_of_pairwise_cons h hm

theorem curve_interp_bounds (l : List CurvePoint) :
    ∀ (p : CurvePoint) (temp : ℤ),
    List.Pairwise curveLe (p :: l) → List.Pairwise pwmLe (p :: l) →
    p.temp ≤ temp → temp < (l.getLastD p).temp →
    p.pwm ≤ (curve_interp temp (p :: l)).1 ∧
      (curve_interp temp (p :: l)).1 ≤ (l.getLastD p).pwm := by
  induction l with
  | nil =>
    intro p temp _ _ hle hlt
    exact absurd (lt_of_le_of_lt hle hlt) (lt_irrefl _)
  | cons p2 rest ih =>
    intro p temp hsort hpwm hle hlt
    rw [List.getLastD_cons] at hlt ⊢
    have hpw : p.pwm ≤ p2.pwm := List.rel_of_pairwise_cons hpwm (by simp)
    by_cases hbr : p.temp ≤ temp ∧ temp ≤ p2.temp
    · simp only [curve_interp]
      rw [if_pos hbr]
      refine ⟨linear_map_lower _ _ _ _ _, ?_⟩
      exact le_trans (linear_map_upper _ _ _ _ _ hpw)
        (pwm_head_le_getLastD p2 rest hpwm.of_cons)
    · have hp2temp : p2.temp < temp := by
        rcases not_and_or.mp hbr with h | h
        · exact absurd hle h
        · exact not_le.mp h
      simp only [curve_interp]
      rw [if_neg hbr]
      have ihres := ih p2 temp hsort.of_cons hpwm.of_cons (le_of_lt hp2temp) hlt
      exact ⟨le_trans hpw ihres.1, ihres.2⟩

theorem curve_interp_mono (l : List CurvePoint) :
    ∀ (p : CurvePoint) (t1 t2 : ℤ),
    List.Pairwise curveLe (p :: l) → List.Pairwise pwmLe (p :: l) →
    p.temp ≤ t1 → t1 ≤ t2 → t2 < (l.getLastD p).temp →
    (curve_interp t1 (p :: l)).1 ≤ (curve_interp t2 (p :: l)).1 := by
  induction l with
  | nil =>
    intro p t1 t2 _ _ h1 h12 hlt
    exact absurd (lt_of_le_of_lt (le_trans h1 h12) hlt) (lt_irrefl _)
  | cons p2 rest ih =>
    intro p t1 t2 hsort hpwm h1 h12 hlt
    rw [List.getLastD_cons] at hlt
    have hpw : p.pwm ≤ p2.pwm := List.rel_of_pairwise_cons hpwm (by simp)
    by_cases hbr1 : p.temp ≤ t1 ∧ t1 ≤ p2.temp
    · by_cases hbr2 : t2 ≤ p2.temp
      · simp only [curve_interp]
        rw [if_pos hbr1, if_pos ⟨le_trans h1 h12, hbr2⟩]
        exact linear_map_mono t1 t2 _ _ _ _ hpw h12
      · have ht2 : p2.temp < t2 := not_le.mp hbr2
        simp only [curve_interp]
        rw [if_pos hbr1, if_neg (fun hc => hbr2 hc.2)]
        have hub : linear_map t1 p.temp p2.temp p.pwm p2.pwm ≤ p2.pwm :=
          linear_map_upper _ _ _ _ _ hpw
        have hlb := (curve_interp_bounds rest p2 t2 hsort.of_cons hpwm.of_cons
          (le_of_lt ht2) hlt).1
        exact le_trans hub hlb
    · have ht1 : p2.temp < t1 := by
        rcases not_and_or.mp hbr1 with h | h
        · exact absurd h1 h
        · exact not_le.mp h
      have ht2 : p2.temp < t2 := lt_of_lt_of_le ht1 h12
      simp only [curve_interp]
      rw [if_neg (fun hc => absurd hc.2 (not_le.mpr ht1)),
        if_neg (fun hc => absurd hc.2 (not_le.mpr ht2))]
      exact ih p2 t1 t2 hsort.of_cons hpwm.of_cons (le_of_lt ht1) h12 hlt

/-- C6: for every non-empty curve whose PWM values are non-decreasing in
temperature, `calculate_pwm_from_curve` is monotonically non-decreasing in
temperature: for all temperatures `t1 ≤ t2`, the PWM returned for `t1` is
at most the PWM returned for `t2`. -/
theorem curve_evaluate_monotone (curve : List CurvePoint) (t1 t2 : ℤ)
    (hne : curve ≠ [])
    (hmono : ∀ p ∈ curve, ∀ q ∈ curve, p.temp ≤ q.temp → p.pwm ≤ q.pwm)
    (h12 : t1 ≤ t2) :
    (calculate_pwm_from_curve t1 curve).1 ≤ (calculate_pwm_from_curve t2 curve).1 := by
  obtain ⟨p, ps, hsort⟩ : ∃ p ps, sortCurve curve = p :: ps := by
    cases hsc : sortCurve curve with
    | nil =>
      have hperm : List.Perm (sortCurve curve) curve := List.perm_insertionSort curveLe curve
      rw [hsc] at hperm
      exact absurd hperm.symm.eq_nil hne
    | cons p ps => exact ⟨p, ps, rfl⟩
  have hs : List.Sorted curveLe (p :: ps) := by
    rw [← hsort]
    exact List.sorted_insertionSort curveLe curve
  have hperm : List.Perm (sortCurve curve) curve := List.perm_insertionSort curveLe curve
  rw [hsort] at hperm
  have hpwm : List.Pairwise pwmLe (p :: ps) := by
    refine List.Pairwise.imp_of_mem ?_ hs
    intro a b ha hb hr
    exact hmono a (hperm.mem_iff.mp ha) b (hperm.mem_iff.mp hb) hr
  have hne' : curve.isEmpty = false := by
    cases curve with
    | nil => exact absurd rfl hne
    | cons a l => rfl
  have heval : ∀ t : ℤ, calculate_pwm_from_curve t curve =
      (if t ≤ p.temp then (p.pwm, "idle")
       else if (ps.getLastD p).temp ≤ t then ((ps.getLastD p).pwm, "critical")
       else curve_interp t (p :: ps)) := by
    intro t
    unfold calculate_pwm_from_curve
    rw [hsort]
    simp [hne']
  by_cases hA : t1 ≤ p.temp
  · rw [heval t1, if_pos hA]
    by_cases hB : t2 ≤ p.temp
    · rw [heval t2, if_pos hB]
    · by_cases hC : (ps.getLastD p).temp ≤ t2
      · rw [heval t2, if_neg hB, if_pos hC]
        exact pwm_head_le_getLastD p ps hpwm
      · rw [heval t2, if_neg hB, if_neg hC]
        exact (curve_interp_bounds ps p t2 hs hpwm (le_of_lt (not_le.mp hB))
          (not_le.mp hC)).1
  · by_cases hD : (ps.getLastD p).temp ≤ t1
    · have hD2 : (ps.getLastD p).temp ≤ t2 := le_trans hD h12
      have hB2 : ¬ t2 ≤ p.temp := fun hc => hA (le_trans h12 hc)
      rw [heval t1, if_neg hA, if_pos hD, heval t2, if_neg hB2, if_pos hD2]
    · by_cases hC : (ps.getLastD p).temp ≤ t2
      · rw [heval t1, if_neg hA, if_neg hD, heval t2,
          if_neg (fun hc => hA (le_trans h12 hc)), if_pos hC]
        exact (curve_interp_bounds ps p t1 hs hpwm (le_of_lt (not_le.mp hA))
          (not_le.mp hD)).2
      · rw [heval t1, if_neg hA, if_neg hD, heval t2,
          if_neg (fun hc => hA (le_trans h12 hc)), if_neg hC]
        exact curve_interp_mono ps p t1 t2 hs hpwm (le_of_lt (not_le.mp hA)) h12
          (not_le.mp hC)

/-- Witness for C6 at the example curve `[(20,20),(40,50),(80,255)]` and
temperatures 25 ≤ 52. -/
theorem curve_evaluate_monotone_witness :
    (calculate_pwm_from_curve 25 [⟨20, 20⟩, ⟨40, 50⟩, ⟨80, 255⟩]).1 ≤
      (calculate_pwm_from_curve 52 [⟨20, 20⟩, ⟨40, 50⟩, ⟨80, 255⟩]).1 :=
  curve_evaluate_monotone [⟨20, 20⟩, ⟨40, 50⟩, ⟨80, 255⟩] 25 52 (by decide)
    (by decide) (by decide)

/-! ## Safety fallback (C1) -/

theorem length_le_sum_of_pos (l : List ℤ) (h : ∀ x ∈ l, 0 < x) :
    (l.length : ℤ) ≤ l.sum := by
  induction l with
  | nil => simp
  | cons x rest ih =>
    simp only [List.length_cons, List.sum_cons]
    have hx := h x (List.mem_cons_self x rest)
    have hr := ih (fun y hy => h y (List.mem_cons_of_mem _ hy))
    push_cast
    omega

theorem calc_avg_pos (h : List ℤ) (v : ℤ) (hv : _calc_avg h = some v) : 0 < v := by
  unfold _calc_avg at hv
  by_cases he : (h.filter (fun t => 0 < t)).isEmpty
  · rw [if_pos he] at hv
    cases hv
  · rw [if_neg he] at hv
    have hval : v = Int.fdiv (h.filter (fun t => 0 < t)).sum
        (h.filter (fun t => 0 < t)).length := (Option.some_inj.mp hv).symm
    have hpos : ∀ x ∈ h.filter (fun t => 0 < t), 0 < x := by
      intro x hx
      simpa using List.of_mem_filter hx
    have hlen : ((h.filter (fun t => 0 < t)).length : ℤ) ≤
        (h.filter (fun t => 0 < t)).sum := length_le_sum_of_pos _ hpos
    have hlenpos : 0 < ((h.filter (fun t => 0 < t)).length : ℤ) := by
      rcases hl : h.filter (fun t => 0 < t) with _ | ⟨a, l⟩
      · rw [hl] at he
        exact absurd rfl he
      · rw [hl]
        simp
    rw [hval, Int.fdiv_eq_ediv _ (le_of_lt hlenpos)]
    have h1 : (1 : ℤ) ≤ (h.filter (fun t => 0 < t)).sum /
        ((h.filter (fun t => 0 < t)).length : ℤ) := by
      rw [Int.le_ediv_iff_mul_le hlenpos]
      simpa using hlen
    omega

theorem read_one_disk_max_pos (size : ℤ) (env : CycleEnv) (acc : DiskReadAcc)
    (d : DiskInfo) (hacc : ∀ m, acc.max_disk_temp = some m → 0 < m) :
    ∀ m, (read_one_disk size env acc d).max_disk_temp = some m → 0 < m := by
  intro m hm
  rcases h1 : _calc_avg (disk_hist_update size ((dictGet acc.hist d.id).getD [])
      (env.disk_temp d.device)) with _ | a
  · rcases h2 : acc.max_disk_temp with _ | mm
    · by_cases hact : d.active <;> simp [read_one_disk, h1, h2, hact] at hm
    · by_cases hact : d.active <;> simp [read_one_disk, h1, h2, hact] at hm <;>
        exact hm ▸ hacc mm h2
  · have ha : 0 < a := calc_avg_pos _ a h1
    rcases h2 : acc.max_disk_temp with _ | mm
    · by_cases hact : d.active <;> simp [read_one_disk, h1, h2, hact] at hm
      · exact hm ▸ ha
    · by_cases hact : d.active
      · by_cases hlt : mm < a <;> simp [read_one_disk, h1, h2, hact, hlt] at hm
        · exact hm ▸ ha
        · exact hm ▸ hacc mm h2
      · simp [read_one_disk, h1, h2, hact] at hm
        exact hm ▸ hacc mm h2

theorem foldl_read_one_disk_max_pos (size : ℤ) (env : CycleEnv)
    (disks : List DiskInfo) :
    ∀ (acc : DiskReadAcc), (∀ m, acc.max_disk_temp = some m → 0 < m) →
    ∀ m, (disks.foldl (read_one_disk size env) acc).max_disk_temp = some m → 0 < m := by
  induction disks with
  | nil => intro acc hacc m hm; exact hacc m hm
  | cons d rest ih =>
    intro acc hacc m hm
    exact ih (read_one_disk size env acc d)
      (read_one_disk_max_pos size env acc d hacc) m hm

theorem read_temps_max_pos (s : ControllerState) (env : CycleEnv) (m : ℤ)
    (hm : (_read_temps s env).status.max_disk_temp = some m) : 0 < m := by
  exact foldl_read_one_disk_max_pos s.config.temp_history_size env s.disks
    { disks := [], disk_temps := [], disk_avg_temps := [],
      hist := s.disk_temp_history, max_disk_temp := none }
    (fun m' hm' => by cases hm') m hm

theorem read_temps_cpu_avg_pos (s : ControllerState) (env : CycleEnv) (v : ℤ)
    (hv : (_read_temps s env).status.cpu_avg_temp = some v) : 0 < v :=
  calc_avg_pos _ v hv

theorem ite_cpu_disk_ne_safety (c : Prop) [Decidable c] :
    (if c then "CPU" else "Disk") ≠ "Safety" := by
  by_cases hc : c <;> simp [hc]

theorem control_cycle_warmed (s : ControllerState) (env : CycleEnv)
    (hw : s.is_warmed_up = true) :
    _control_cycle s env = cycle_after_warmup (_read_temps s env) env := by
  have h1 : (_read_temps s env).is_warmed_up = true := hw
  simp [_control_cycle, h1]

/-- C1: in a warmed-up, enabled cycle, the safety fallback triggers if and
only if neither the CPU average nor any active disk's average is available
(both freshly computed averages are "no data"); in that case the target
PWM is 128 regardless of curve configuration (substituting any curves
leaves the fallback outputs unchanged), the trigger source is "Safety",
the stage is "warning", normal computation is skipped (no alert check
runs, so no pushes), and 128 is written exactly when the last-read current
PWM differs from it. -/
theorem safety_fallback_iff (s : ControllerState) (env : CycleEnv)
    (hw : s.is_warmed_up = true) (hen : s.config.enabled = true) :
    (((_read_temps s env).status.cpu_avg_temp = none ∧
      (_read_temps s env).status.max_disk_temp = none) ↔
      (_control_cycle s env).state.status.trigger_source = some "Safety") ∧
    ((_read_temps s env).status.cpu_avg_temp = none ∧
      (_read_temps s env).status.max_disk_temp = none →
      (_control_cycle s env).state.status.target_pwm = some 128 ∧
      (_control_cycle s env).state.status.trigger_stage = some "warning" ∧
      (_control_cycle s env).pushes = [] ∧
      (_control_cycle s env).writes =
        (if env.current_pwm = some 128 then [] else [128]) ∧
      (∀ cc dc : List CurvePoint,
        (_control_cycle { s with config := { s.config with
          cpu_curve := cc, disk_curve := dc } } env).state.status.target_pwm =
            some 128 ∧
        (_control_cycle { s with config := { s.config with
          cpu_curve := cc, disk_curve := dc } } env).state.status.trigger_source =
            some "Safety")) := by
  have hcyc := control_cycle_warmed s env hw
  have hcur : (_read_temps s env).status.current_pwm = env.current_pwm := rfl
  have hen' : (_read_temps s env).config.enabled = true := hen
  have hspv : set_pwm_value 128 = 128 := rfl
  constructor
  · constructor
    · rintro ⟨h1, h2⟩
      rw [hcyc]
      have hhc : truthy_pos (_read_temps s env).status.cpu_avg_temp = false := by
        rw [h1]; rfl
      have hhd : truthy_pos (_read_temps s env).status.max_disk_temp = false := by
        rw [h2]; rfl
      simp [cycle_after_warmup, hen', hhc, hhd]
    · intro hsrc
      by_contra hnot
      have hor : truthy_pos (_read_temps s env).status.cpu_avg_temp = true ∨
          truthy_pos (_read_temps s env).status.max_disk_temp = true := by
        rcases not_and_or.mp hnot with h | h
        · left
          obtain ⟨v, hv⟩ := Option.ne_none_iff_exists'.mp h
          rw [hv]
          simpa [truthy_pos] using read_temps_cpu_avg_pos s env v hv
        · right
          obtain ⟨m, hm⟩ := Option.ne_none_iff_exists'.mp h
          rw [hm]
          simpa [truthy_pos] using read_temps_max_pos s env m hm
      rw [hcyc] at hsrc
      have hcond : ¬ (¬ truthy_pos (_read_temps s env).status.cpu_avg_temp ∧
          ¬ truthy_pos (_read_temps s env).status.max_disk_temp) := by
        rcases hor with h | h <;> simp [h]
      simp only [cycle_after_warmup, hen', hcond] at hsrc
      split at hsrc <;> try simp_all
      all_goals rw [apply_ite (fun t : ℤ × String × String => t.2.1)] at hsrc
      all_goals exact absurd hsrc (ite_cpu_disk_ne_safety _)
  · rintro ⟨h1, h2⟩
    have hhc : truthy_pos (_read_temps s env).status.cpu_avg_temp = false := by
      rw [h1]; rfl
    have hhd : truthy_pos (_read_temps s env).status.max_disk_temp = false := by
      rw [h2]; rfl
    refine ⟨?_, ?_, ?_, ?_, ?_⟩
    · rw [hcyc]
      simp [cycle_after_warmup, hen', hhc, hhd]
    · rw [hcyc]
      simp [cycle_after_warmup, hen', hhc, hhd]
    · rw [hcyc]
      simp [cycle_after_warmup, hen', hhc, hhd]
    · rw [hcyc]
      simp [cycle_after_warmup, hen', hhc, hhd, hcur, hspv]
    · intro cc dc
      have hw' : ({ s with config := { s.config with
          cpu_curve := cc, disk_curve := dc } } : ControllerState).is_warmed_up =
          true := hw
      have hcyc' := control_cycle_warmed
        { s with config := { s.config with cpu_curve := cc, disk_curve := dc } }
        env hw'
      have h1' : (_read_temps { s with config := { s.config with
          cpu_curve := cc, disk_curve := dc } } env).status.cpu_avg_temp = none := h1
      have h2' : (_read_temps { s with config := { s.config with
          cpu_curve := cc, disk_curve := dc } } env).status.max_disk_temp = none := h2
      have hhc' : truthy_pos (_read_temps { s with config := { s.config with
          cpu_curve := cc, disk_curve := dc } } env).status.cpu_avg_temp = false := by
        rw [h1']; rfl
      have hhd' : truthy_pos (_read_temps { s with config := { s.config with
          cpu_curve := cc, disk_curve := dc } } env).status.max_disk_temp = false := by
        rw [h2']; rfl
      have hen'' : (_read_temps { s with config := { s.config with
          cpu_curve := cc, disk_curve := dc } } env).config.enabled = true := hen
      rw [hcyc']
      constructor <;> simp [cycle_after_warmup, hen'', hhc', hhd']

/-- The warmed-up, enabled, sensorless state of the C1 witness. -/
def c1_state : ControllerState where
  config := default_config
  disks := []
  cpu_temp_history := []
  disk_temp_history := []
  warmup_counter := 4
  is_warmed_up := true
  last_alert_time_cpu := 0
  last_alert_time_disk := []
  status := init_status

/-- The environment of the C1 witness: every sensor read fails, the
actuator currently reads 100. -/
def c1_env : CycleEnv where
  cpu_temp := none
  disk_temp := fun _ => none
  fan_rpm := none
  current_pwm := some 100
  now := 0

/-- Witness for C1: with no CPU data and no disks, the cycle enters the
safety fallback — target 128, source "Safety", stage "warning", and 128 is
written because the current PWM reads 100. -/
theorem safety_fallback_iff_witness :
    (_control_cycle c1_state c1_env).state.status.trigger_source = some "Safety" ∧
    (_control_cycle c1_state c1_env).state.status.target_pwm = some 128 ∧
    (_control_cycle c1_state c1_env).state.status.trigger_stage = some "warning" ∧
    (_control_cycle c1_state c1_env).writes = [128] ∧
    (_control_cycle c1_state c1_env).pushes = [] := by
  have h := safety_fallback_iff c1_state c1_env rfl rfl
  have hnone : (_read_temps c1_state c1_env).status.cpu_avg_temp = none ∧
      (_read_temps c1_state c1_env).status.max_disk_temp = none := ⟨rfl, rfl⟩
  obtain ⟨ht, hst, hp, hwr, _⟩ := h.2 hnone
  exact ⟨h.1.mp hnone, ht, hst, hwr.trans (by decide), hp⟩

/-! ## Target selection (C3) -/

/-- Statement-side replay of the per-disk averages that `_read_temps`
computes (threading exactly the same history-dictionary updates), pairing
each disk record with the average of its freshly-updated window. -/
def disk_avgs_replay (size : ℤ) (env : CycleEnv) :
    List DiskInfo → List (String × List ℤ) → List (DiskInfo × Option ℤ)
  | [], _ => []
  | d :: rest, hist =>
    let h := disk_hist_update size ((dictGet hist d.id).getD []) (env.disk_temp d.device)
    (d, _calc_avg h) :: disk_avgs_replay size env rest (dictInsert hist d.id h)

theorem foldl_read_one_disk_max (size : ℤ) (env : CycleEnv) :
    ∀ (disks : List DiskInfo) (acc : DiskReadAcc),
    (disks.foldl (read_one_disk size env) acc).max_disk_temp =
      ((disk_avgs_replay size env disks acc.hist).filterMap
        (fun p => if p.1.active then p.2 else none)).foldl
        (fun m a => match m with
          | none => some a
          | some b => if b < a then some a else some b) acc.max_disk_temp := by
  intro disks
  induction disks with
  | nil => intro acc; rfl
  | cons d rest ih =>
    intro acc
    have hstep_hist : (read_one_disk size env acc d).hist =
        dictInsert acc.hist d.id (disk_hist_update size
          ((dictGet acc.hist d.id).getD []) (env.disk_temp d.device)) := rfl
    simp only [List.foldl_cons]
    rw [ih (read_one_disk size env acc d), hstep_hist]
    simp only [disk_avgs_replay, List.filterMap_cons]
    rcases havg : _calc_avg (disk_hist_update size
        ((dictGet acc.hist d.id).getD []) (env.disk_temp d.device)) with _ | a
    · by_cases hact : d.active
      · have hmax : (read_one_disk size env acc d).max_disk_temp =
            acc.max_disk_temp := by
          simp [read_one_disk, havg, hact]
        rw [hmax]
        simp [hact]
      · have hmax : (read_one_disk size env acc d).max_disk_temp =
            acc.max_disk_temp := by
          simp [read_one_disk, havg, hact]
        rw [hmax]
        simp [hact]
    · by_cases hact : d.active
      · have hmax : (read_one_disk size env acc d).max_disk_temp =
            (match acc.max_disk_temp with
              | none => some a
              | some b => if b < a then some a else some b) := by
          rcases hm : acc.max_disk_temp with _ | b <;>
            simp [read_one_disk, havg, hact, hm]
        rw [hmax]
        simp [hact]
      · have hmax : (read_one_disk size env acc d).max_disk_temp =
            acc.max_disk_temp := by
          simp [read_one_disk, havg, hact]
        rw [hmax]
        simp [hact]

theorem foldl_optMax_none_eq_max (l : List ℤ) :
    l.foldl (fun m a => match m with
      | none => some a
      | some b => if b < a then some a else some b) none = l.max? := by
  have hgen : ∀ (l : List ℤ) (b : ℤ), l.foldl (fun m a => match m with
      | none => some a
      | some b => if b < a then some a else some b) (some b) =
      some (l.foldl max b) := by
    intro l
    induction l with
    | nil => intro b; rfl
    | cons x rest ih =>
      intro b
      simp only [List.foldl_cons]
      have hstep : (if b < x then some x else some b) = some (max b x) := by
        by_cases h : b < x
        · rw [if_pos h, max_eq_right (le_of_lt h)]
        · rw [if_neg h, max_eq_left (not_lt.mp h)]
      rw [hstep, ih]
  cases l with
  | nil => rfl
  | cons a rest =>
    simp only [List.foldl_cons]
    show List.foldl (fun m a => match m with
      | none => some a
      | some b => if b < a then some a else some b) (some a) rest = (a :: rest).max?
    rw [hgen]
    rfl

/-- The disk-side input of a cycle: `max_disk_temp` recorded by
`_read_temps` is exactly the maximum of the freshly-computed averages of
the *active* disks; inactive disks never influence it. -/
theorem read_temps_max_is_active_max (s : ControllerState) (env : CycleEnv) :
    (_read_temps s env).status.max_disk_temp =
      ((disk_avgs_replay s.config.temp_history_size env s.disks
        s.disk_temp_history).filterMap
        (fun p => if p.1.active then p.2 else none)).max? := by
  have h := foldl_read_one_disk_max s.config.temp_history_size env s.disks
    { disks := [], disk_temps := [], disk_avg_temps := [],
      hist := s.disk_temp_history, max_disk_temp := none }
  rw [← foldl_optMax_none_eq_max]
  exact h

theorem curve_interp_range (l : List CurvePoint) (temp : ℤ)
    (hb : ∀ p ∈ l, 0 ≤ p.pwm ∧ p.pwm ≤ 255) :
    0 ≤ (curve_interp temp l).1 ∧ (curve_interp temp l).1 ≤ 255 := by
  induction l with
  | nil => exact ⟨by norm_num [curve_interp], by norm_num [curve_interp]⟩
  | cons p1 rest ih =>
    cases rest with
    | nil => exact ⟨by norm_num [curve_interp], by norm_num [curve_interp]⟩
    | cons p2 rest' =>
      by_cases hbr : p1.temp ≤ temp ∧ temp ≤ p2.temp
      · simp only [curve_interp]
        rw [if_pos hbr]
        have h1 := hb p1 (by simp)
        have h2 := hb p2 (by simp)
        exact ⟨le_trans h1.1 (linear_map_lower _ _ _ _ _),
          linear_map_le_255 _ _ _ _ _ h1.2 h2.2⟩
      · simp only [curve_interp]
        rw [if_neg hbr]
        exact ih (fun p hp => hb p (List.mem_cons_of_mem _ hp))

theorem calculate_pwm_from_curve_range (temp : ℤ) (curve : List CurvePoint)
    (hb : ∀ p ∈ curve, 0 ≤ p.pwm ∧ p.pwm ≤ 255) :
    0 ≤ (calculate_pwm_from_curve temp curve).1 ∧
      (calculate_pwm_from_curve temp curve).1 ≤ 255 := by
  unfold calculate_pwm_from_curve
  by_cases he : curve.isEmpty
  · simp [he]
  · have hperm : List.Perm (sortCurve curve) curve :=
      List.perm_insertionSort curveLe curve
    have hbs : ∀ p ∈ sortCurve curve, 0 ≤ p.pwm ∧ p.pwm ≤ 255 :=
      fun p hp => hb p (hperm.mem_iff.mp hp)
    rcases hsc : sortCurve curve with _ | ⟨p, ps⟩
    · simp [he]
    · simp only [he, Bool.false_eq_true, if_false]
      have hp := hbs p (hsc ▸ List.mem_cons_self p ps)
      have hlast := hbs (ps.getLastD p) (hsc ▸ List.getLastD_mem_cons ps p)
      by_cases h1 : temp ≤ p.temp
      · rw [if_pos h1]
        exact hp
      · rw [if_neg h1]
        by_cases h2 : (ps.getLastD p).temp ≤ temp
        · rw [if_pos h2]
          exact hlast
        · rw [if_neg h2]
          exact curve_interp_range (p :: ps) temp
            (fun q hq => hbs q (hsc ▸ hq))

theorem calculate_pwm_range (temp : ℤ) (cfg : FanConfig) (is_cpu : Bool)
    (hcm : cfg.use_curve_mode = true)
    (hb : ∀ p ∈ (if is_cpu then cfg.cpu_curve else cfg.disk_curve),
      0 ≤ p.pwm ∧ p.pwm ≤ 255) :
    0 ≤ (calculate_pwm temp cfg is_cpu).1 ∧ (calculate_pwm temp cfg is_cpu).1 ≤ 255 := by
  simp only [calculate_pwm, hcm, if_true]
  exact calculate_pwm_from_curve_range temp _ hb

theorem apply_hysteresis_nonpos (th : ℤ) (c : Option ℤ) (t : ℤ) (h : th ≤ 0) :
    apply_hysteresis th c t = t := by
  cases c with
  | none => rfl
  | some cv =>
    show (if 0 < th ∧ |t - cv| < th then cv else t) = t
    rw [if_neg]
    rintro ⟨h1, _⟩
    omega

/-- C3: in an active, enabled cycle (with the default zero hysteresis
threshold, curve mode, and curves whose PWM values lie in 0..255): the
disk-side input is the maximum averaged temperature among active disks
only (first conjunct, hypothesis-free); if only the CPU side has data the
target is the CPU curve's result with source "CPU"; if only the disk side
has data the target is the disk curve's result; if both are available the
target is `max(cpu_pwm, disk_pwm)` and the winning side is reported as
trigger source and stage; and concretely a CPU average of 65°C giving PWM
160 beats an active-disk max average of 30°C giving PWM 40, so the engine
selects CPU with target 160. -/
theorem cycle_target_selection (s : ControllerState) (env : CycleEnv)
    (hw : s.is_warmed_up = true) (hen : s.config.enabled = true)
    (hth : s.config.pwm_change_threshold = 0)
    (hcm : s.config.use_curve_mode = true)
    (hcb : ∀ p ∈ s.config.cpu_curve, 0 ≤ p.pwm ∧ p.pwm ≤ 255)
    (hdb : ∀ p ∈ s.config.disk_curve, 0 ≤ p.pwm ∧ p.pwm ≤ 255) :
    (∀ (s' : ControllerState) (env' : CycleEnv),
      (_read_temps s' env').status.max_disk_temp =
        ((disk_avgs_replay s'.config.temp_history_size env' s'.disks
          s'.disk_temp_history).filterMap
          (fun p => if p.1.active then p.2 else none)).max?) ∧
    (∀ ca : ℤ, (_read_temps s env).status.cpu_avg_temp = some ca →
      (_read_temps s env).status.max_disk_temp = none →
      (_control_cycle s env).state.status.target_pwm =
        some (calculate_pwm ca s.config true).1 ∧
      (_control_cycle s env).state.status.trigger_source = some "CPU" ∧
      (_control_cycle s env).state.status.trigger_stage =
        some (calculate_pwm ca s.config true).2) ∧
    (∀ md : ℤ, (_read_temps s env).status.cpu_avg_temp = none →
      (_read_temps s env).status.max_disk_temp = some md →
      (_control_cycle s env).state.status.target_pwm =
        some (calculate_pwm md s.config false).1) ∧
    (∀ ca md : ℤ, (_read_temps s env).status.cpu_avg_temp = some ca →
      (_read_temps s env).status.max_disk_temp = some md →
      (_control_cycle s env).state.status.target_pwm =
        some (max (calculate_pwm ca s.config true).1
          (calculate_pwm md s.config false).1) ∧
      ((_control_cycle s env).state.status.trigger_source,
       (_control_cycle s env).state.status.trigger_stage) =
        (if (calculate_pwm md s.config false).1 ≤ (calculate_pwm ca s.config true).1
         then (some "CPU", some (calculate_pwm ca s.config true).2)
         else (some "Disk", some (calculate_pwm md s.config false).2))) := by
  have hcyc := control_cycle_warmed s env hw
  have hen' : (_read_temps s env).config.enabled = true := hen
  have hth' : (_read_temps s env).config.pwm_change_threshold = 0 := hth
  have hcfg : (_read_temps s env).config = s.config := rfl
  have hap : ∀ (c : Option ℤ) (t : ℤ),
      apply_hysteresis s.config.pwm_change_threshold c t = t :=
    fun c t => apply_hysteresis_nonpos _ c t (by omega)
  refine ⟨fun s' env' => read_temps_max_is_active_max s' env', ?_, ?_, ?_⟩
  · intro ca h1 h2
    have hca : 0 < ca := read_temps_cpu_avg_pos s env ca h1
    have hhc : truthy_pos (_read_temps s env).status.cpu_avg_temp = true := by
      rw [h1]
      simpa [truthy_pos] using hca
    have hhd : truthy_pos (_read_temps s env).status.max_disk_temp = false := by
      rw [h2]; rfl
    have hcpu0 : 0 ≤ (calculate_pwm ca s.config true).1 :=
      (calculate_pwm_range ca s.config true hcm (by simpa using hcb)).1
    rw [hcyc]
    simp only [cycle_after_warmup, hen', hhc, hhd]
    have hget : ((_read_temps s env).status.cpu_avg_temp).getD 0 = ca := by
      rw [h1]; rfl
    simp [hget, hcfg, hhc, hhd, hcpu0, hth', hap]
  · intro md h1 h2
    have hmd : 0 < md := read_temps_max_pos s env md h2
    have hhc : truthy_pos (_read_temps s env).status.cpu_avg_temp = false := by
      rw [h1]; rfl
    have hhd : truthy_pos (_read_temps s env).status.max_disk_temp = true := by
      rw [h2]
      simpa [truthy_pos] using hmd
    have hget : ((_read_temps s env).status.max_disk_temp).getD 0 = md := by
      rw [h2]; rfl
    have hdisk0 : 0 ≤ (calculate_pwm md s.config false).1 :=
      (calculate_pwm_range md s.config false hcm (by simpa using hdb)).1
    rw [hcyc]
    simp only [cycle_after_warmup, hen', hhc, hhd]
    by_cases hz : (calculate_pwm md s.config false).1 ≤ 0
    · have hz0 : (calculate_pwm md s.config false).1 = 0 := le_antisymm hz hdisk0
      simp [hget, hcfg, hhc, hhd, hz, hz0, hth', hap]
    · simp [hget, hcfg, hhc, hhd, hz, hth', hap]
  · intro ca md h1 h2
    have hca : 0 < ca := read_temps_cpu_avg_pos s env ca h1
    have hmd : 0 < md := read_temps_max_pos s env md h2
    have hhc : truthy_pos (_read_temps s env).status.cpu_avg_temp = true := by
      rw [h1]
      simpa [truthy_pos] using hca
    have hhd : truthy_pos (_read_temps s env).status.max_disk_temp = true := by
      rw [h2]
      simpa [truthy_pos] using hmd
    have hgetc : ((_read_temps s env).status.cpu_avg_temp).getD 0 = ca := by
      rw [h1]; rfl
    have hgetd : ((_read_temps s env).status.max_disk_temp).getD 0 = md := by
      rw [h2]; rfl
    rw [hcyc]
    simp only [cycle_after_warmup, hen', hhc, hhd]
    by_cases hwin : (calculate_pwm md s.config false).1 ≤
        (calculate_pwm ca s.config true).1
    · simp [hgetc, hgetd, hcfg, hhc, hhd, hwin, hth', hap,
        max_eq_left hwin]
    · simp [hgetc, hgetd, hcfg, hhc, hhd, hwin, hth', hap,
        max_eq_right (le_of_lt (not_le.mp hwin))]

/-- The configuration of the C3 example: default CPU curve, disk curve
`[(20,20),(40,60)]` (which maps 30°C to PWM 40). -/
def c3_config : FanConfig :=
  { default_config with disk_curve := [⟨20, 20⟩, ⟨40, 60⟩] }

/-- The warmed-up state of the C3 example: one active disk with a 30°C
history, a 65°C CPU history. -/
def c3_state : ControllerState where
  config := c3_config
  disks := [{ id := "Disk1", device := "sda", active := true, temp := none }]
  cpu_temp_history := [65]
  disk_temp_history := [("Disk1", [30])]
  warmup_counter := 4
  is_warmed_up := true
  last_alert_time_cpu := 0
  last_alert_time_disk := []
  status := init_status

/-- The environment of the C3 example. -/
def c3_env : CycleEnv where
  cpu_temp := some 65
  disk_temp := fun _ => some 30
  fan_rpm := some 1000
  current_pwm := some 100
  now := 0

/-- Witness for C3, including the claim's concrete example: CPU average
65°C evaluates to PWM 160 (stage "warning"), the active-disk max average
30°C evaluates to PWM 40 (stage "idle"), and the engine selects CPU with
target 160. -/
theorem cycle_target_selection_witness :
    calculate_pwm 65 c3_config true = (160, "warning") ∧
    calculate_pwm 30 c3_config false = (40, "idle") ∧
    (_read_temps c3_state c3_env).status.cpu_avg_temp = some 65 ∧
    (_read_temps c3_state c3_env).status.max_disk_temp = some 30 ∧
    (_control_cycle c3_state c3_env).state.status.target_pwm = some 160 ∧
    (_control_cycle c3_state c3_env).state.status.trigger_source = some "CPU" ∧
    (_control_cycle c3_state c3_env).state.status.trigger_stage = some "warning" := by
  have h := cycle_target_selection c3_state c3_env rfl rfl rfl rfl
    (by decide) (by decide)
  have hb := h.2.2.2 65 30 rfl rfl
  have h2 := hb.2
  rw [if_pos (by decide)] at h2
  have hsrc := congrArg Prod.fst h2
  have hstage := congrArg Prod.snd h2
  exact ⟨by decide, by decide, rfl, rfl, hb.1.trans (by decide), hsrc,
    hstage.trans (by decide)⟩

/-! ## Hysteresis (C4) -/

/-- C4, amended: with a configured hysteresis threshold `T > 0`, the
engine keeps the last-read current PWM whenever the newly computed target
differs from it by less than `T` (first conjunct); consequently, two
consecutive cycles whose raw targets differ by less than `T` actuate the
same PWM both times *provided the first cycle's raw target took effect*
(so that the second cycle's current reading equals it — second conjunct);
and in a warmed-up, enabled cycle the (possibly hysteresis-suppressed)
target is written to the actuator, clamped to 0..255, exactly when it
differs from the last-read current value (third conjunct). -/
theorem hysteresis_behaviour :
    (∀ (T c t : ℤ), 0 < T → |t - c| < T → apply_hysteresis T (some c) t = c) ∧
    (∀ (T t1 t2 : ℤ), 0 < T → |t2 - t1| < T →
      apply_hysteresis T (some t1) t2 = t1) ∧
    (∀ (s : ControllerState) (env : CycleEnv), s.is_warmed_up = true →
      s.config.enabled = true → ∀ tgt : ℤ,
      (_control_cycle s env).state.status.target_pwm = some tgt →
      (_control_cycle s env).writes =
        (if (_read_temps s env).status.current_pwm = some tgt then []
         else [set_pwm_value tgt])) := by
  refine ⟨?_, ?_, ?_⟩
  · intro T c t hT habs
    show (if 0 < T ∧ |t - c| < T then c else t) = c
    rw [if_pos ⟨hT, habs⟩]
  · intro T t1 t2 hT habs
    show (if 0 < T ∧ |t2 - t1| < T then t1 else t2) = t1
    rw [if_pos ⟨hT, habs⟩]
  · intro s env hw hen tgt htgt
    have hcyc := control_cycle_warmed s env hw
    have hen' : (_read_temps s env).config.enabled = true := hen
    rw [hcyc] at htgt ⊢
    by_cases hsafe : ¬ truthy_pos (_read_temps s env).status.cpu_avg_temp ∧
        ¬ truthy_pos (_read_temps s env).status.max_disk_temp
    · have h128 : tgt = 128 := by
        simp [cycle_after_warmup, hen', hsafe] at htgt
        omega
      subst h128
      simp [cycle_after_warmup, hen', hsafe]
    · have hcond : ¬ (truthy_pos (_read_temps s env).status.cpu_avg_temp = false ∧
          truthy_pos (_read_temps s env).status.max_disk_temp = false) := by
        simpa using hsafe
      simp [cycle_after_warmup, hen', hcond] at htgt ⊢
      rw [← htgt]

/-- The configuration of the C4 counterexample: hysteresis threshold 10,
history window 1, alerting off, CPU curve `[(10,109),(20,115)]`. -/
def c4_config : FanConfig :=
  { default_config with
    pwm_change_threshold := 10
    temp_history_size := 1
    alert_enabled := false
    cpu_curve := [⟨10, 109⟩, ⟨20, 115⟩] }

/-- The warmed-up starting state of the C4 counterexample. -/
def c4_state : ControllerState where
  config := c4_config
  disks := []
  cpu_temp_history := []
  disk_temp_history := []
  warmup_counter := 1
  is_warmed_up := true
  last_alert_time_cpu := 0
  last_alert_time_disk := []
  status := init_status

/-- Cycle-1 environment: CPU reads 10°C, actuator reads 100. -/
def c4_env1 : CycleEnv where
  cpu_temp := some 10
  disk_temp := fun _ => none
  fan_rpm := none
  current_pwm := some 100
  now := 0

/-- Cycle-2 environment: CPU reads 20°C; the actuator still reads 100
because cycle 1 wrote nothing. -/
def c4_env2 : CycleEnv where
  cpu_temp := some 20
  disk_temp := fun _ => none
  fan_rpm := none
  current_pwm := some 100
  now := 0

/-- Counterexample to C4 as stated: with threshold 10, two consecutive
cycles have raw targets 109 and 115 — differing by 6 < 10 — yet they do
not actuate the same PWM both times: cycle 1 is suppressed to the current
100 (no write, PWM stays 100) while cycle 2's target 115 differs from the
current 100 by 15 ≥ 10 and is written. -/
theorem hysteresis_two_cycle_cex :
    c4_config.pwm_change_threshold = 10 ∧
    (calculate_pwm 10 c4_config true).1 = 109 ∧
    (calculate_pwm 20 c4_config true).1 = 115 ∧
    |(109 : ℤ) - 115| < 10 ∧
    (_control_cycle c4_state c4_env1).writes = [] ∧
    (_control_cycle c4_state c4_env1).state.status.target_pwm = some 100 ∧
    (_control_cycle (_control_cycle c4_state c4_env1).state c4_env2).writes = [115] := by
  exact ⟨rfl, rfl, rfl, by decide, rfl, rfl, rfl⟩

/-- Witness for C4 (amended): suppression keeps the current value 100 for
target 109; against a current of 109 the next target 115 (differing by
6 < 10) is kept at 109; and the concrete cycle writes nothing because its
suppressed target equals the current reading. -/
theorem hysteresis_behaviour_witness :
    apply_hysteresis 10 (some 100) 109 = 100 ∧
    apply_hysteresis 10 (some 109) 115 = 109 ∧
    (_control_cycle c4_state c4_env1).writes = [] := by
  have h := hysteresis_behaviour
  refine ⟨h.1 10 100 109 (by decide) (by decide),
    h.2.1 10 109 115 (by decide) (by decide), ?_⟩
  have h3 := h.2.2 c4_state c4_env1 rfl rfl 100 rfl
  exact h3.trans (by decide)

end FanControl
